import Mathlib

/-!
Verification of ESP_ATMod (AT command processor for ESP8266) against its
natural-language specification.

The development shallowly embeds the relevant C++ functions:

* asnDecode.cpp : readHeader, getCnFromDer (DER certificate CN extraction)
* command.cpp   : findCommand (AT command matcher), readNumber,
                  cmd_AT_CIPSEND, cmd_AT_CIPSSLAUTH, cmd_AT_CIPSSLCERT
* ESP_ATMod.ino : the serial loop (data-send mode and certificate-load mode),
                  checkCertificateDuplicatesAndLoad, the startup loader

Byte buffers are modelled as functions Nat -> Nat read through a mask
(mod 256, the value of a uint8_t); 16-bit arithmetic that can wrap in C
carries an explicit mod 65536.
-/

namespace ATMod

/-- Read one byte of memory: a uint8_t dereference always yields a value
below 256, so reads are masked. -/
def rd (m : Nat → Nat) (i : Nat) : Nat := m i % 256

/-- Turn a finite byte list into a memory; bytes past the end read as 0. -/
def toMem (l : List Nat) : Nat → Nat := fun i => l.getD i 0

/-- The bytes of list l sit in memory m starting at offset p. -/
def agrees (m : Nat → Nat) (p : Nat) (l : List Nat) : Prop :=
  ∀ i < l.length, rd m (p + i) = l.getD i 0

/-!
## asnDecode.cpp

readHeader and getCnFromDer. The position and length parameters are
uint16_t in C; assignments that can exceed 65535 carry a mod 65536.
The while loop over the issuer sequence is given a fuel of 65536
iterations (every successful iteration of the C loop advances the uint16
position, so no execution relevant here needs more).
-/

/-- asnHeader_t from asnDecode.cpp. -/
structure AsnHeader where
  tag : Nat
  length : Nat
  dataPos : Nat
deriving DecidableEq

/-- readHeader from asnDecode.cpp. Returns the header record and the new
value of the by-reference position argument. A header with dataPos = 0
signals failure, exactly as in the source. The nullptr check is dropped:
the memory model has no null. -/
def readHeader (der : Nat → Nat) (pos len : Nat) : AsnHeader × Nat :=
  if pos ≥ len then ({ tag := 0, length := 0, dataPos := 0 }, pos)
  else
    let t := rd der pos
    if rd der (pos + 1) < 128 then
      let l := rd der (pos + 1)
      if pos + 2 > len then ({ tag := t, length := l, dataPos := 0 }, pos)
      else ({ tag := t, length := l, dataPos := (pos + 2) % 65536 }, (pos + 2 + l) % 65536)
    else if rd der (pos + 1) = 130 then
      let l := rd der (pos + 2) * 256 + rd der (pos + 3)
      if pos + 4 > len then ({ tag := t, length := l, dataPos := 0 }, pos)
      else ({ tag := t, length := l, dataPos := (pos + 4) % 65536 }, (pos + 4 + l) % 65536)
    else ({ tag := t, length := 0, dataPos := 0 }, pos)

/-- The memory indices readHeader dereferences, in order of first access
(der[pos] for the tag, der[pos+1] for the length byte, and in the 0x82
branch also der[pos+2] and der[pos+3]). -/
def readHeaderReads (der : Nat → Nat) (pos len : Nat) : List Nat :=
  if pos ≥ len then []
  else if rd der (pos + 1) < 128 then [pos, pos + 1]
  else if rd der (pos + 1) = 130 then [pos, pos + 1, pos + 2, pos + 3]
  else [pos, pos + 1]

/-- The value TLV of a matched commonName AVA (asnDecode.cpp lines
221-232): require a readable header with the PrintableString tag and
return the offset of the byte before the payload (the C code returns
der + header.dataPos - 1). readHeader is pure, so the C local variable
header appears as a repeated application. -/
def cnValue (der : Nat → Nat) (valPos attrEnd : Nat) : Option Nat :=
  if (readHeader der valPos attrEnd).1.dataPos = 0 then none
  else if (readHeader der valPos attrEnd).1.tag ≠ 19 then none
  else some ((readHeader der valPos attrEnd).1.dataPos - 1)

/-- The AttributeValueAssertion contents (asnDecode.cpp lines 209-233):
read the OID, compare against 2.5.4.3, and on a match read the value.
some r means getCnFromDer returns r; none means the while loop continues
with the next RDN. -/
def cnAttr (der : Nat → Nat) (attrPos attrEnd : Nat) : Option (Option Nat) :=
  if (readHeader der attrPos attrEnd).1.dataPos = 0 ∨
      (readHeader der attrPos attrEnd).1.tag ≠ 6 then some none
  else if (readHeader der attrPos attrEnd).1.length = 3 ∧
      rd der (readHeader der attrPos attrEnd).1.dataPos = 85 ∧
      rd der ((readHeader der attrPos attrEnd).1.dataPos + 1) = 4 ∧
      rd der ((readHeader der attrPos attrEnd).1.dataPos + 2) = 3 then
    some (cnValue der (readHeader der attrPos attrEnd).2 attrEnd)
  else none

/-- Inside one RDN SET (asnDecode.cpp lines 197-233): the
AttributeValueAssertion SEQUENCE header, then its contents. The uint16
sum setPos + header.length carries the mod. -/
def cnIter (der : Nat → Nat) (setPos setEnd : Nat) : Option (Option Nat) :=
  if (readHeader der setPos setEnd).1.dataPos = 0 ∨
      (readHeader der setPos setEnd).1.tag ≠ 48 then some none
  else
    cnAttr der (readHeader der setPos setEnd).1.dataPos
      (((readHeader der setPos setEnd).1.dataPos +
        (readHeader der setPos setEnd).1.length) % 65536)

/-- The while loop of getCnFromDer over the issuer sequence
(asnDecode.cpp lines 183-234), with explicit fuel (every successful C
iteration advances the uint16 position, so 65536 iterations cover every
execution relevant here); on exhausted fuel the result is none. Each
iteration reads the SET header and runs cnIter on its contents; a some
result returns from the function, a none result continues the loop at
the position past the SET. -/
def cnLoop (der : Nat → Nat) : Nat → Nat → Nat → Option Nat
  | 0, _, _ => none
  | fuel + 1, issuerPos, issuerEnd =>
    if issuerPos < issuerEnd then
      if (readHeader der issuerPos issuerEnd).1.dataPos = 0 ∨
          (readHeader der issuerPos issuerEnd).1.tag ≠ 49 then none
      else
        (cnIter der (readHeader der issuerPos issuerEnd).1.dataPos
          (((readHeader der issuerPos issuerEnd).1.dataPos +
            (readHeader der issuerPos issuerEnd).1.length) % 65536)).getD
          (cnLoop der fuel (readHeader der issuerPos issuerEnd).2 issuerEnd)
    else none

/-- The issuer field (asnDecode.cpp lines 170-180): an outer SEQUENCE
whose contents the while loop scans. -/
def getCnIssuer (der : Nat → Nat) (pos tbsEnd : Nat) : Option Nat :=
  if (readHeader der pos tbsEnd).1.dataPos = 0 ∨
      (readHeader der pos tbsEnd).1.tag ≠ 48 then none
  else
    cnLoop der 65536 (readHeader der pos tbsEnd).1.dataPos
      (((readHeader der pos tbsEnd).1.dataPos +
        (readHeader der pos tbsEnd).1.length) % 65536)

/-- The signature AlgorithmIdentifier SEQUENCE (lines 162-168). -/
def getCnSig (der : Nat → Nat) (pos tbsEnd : Nat) : Option Nat :=
  if (readHeader der pos tbsEnd).1.dataPos = 0 ∨
      (readHeader der pos tbsEnd).1.tag ≠ 48 then none
  else getCnIssuer der (readHeader der pos tbsEnd).2 tbsEnd

/-- The serialNumber INTEGER (lines 154-160). -/
def getCnSerial (der : Nat → Nat) (pos tbsEnd : Nat) : Option Nat :=
  if (readHeader der pos tbsEnd).1.dataPos = 0 ∨
      (readHeader der pos tbsEnd).1.tag ≠ 2 then none
  else getCnSig der (readHeader der pos tbsEnd).2 tbsEnd

/-- The version [0] field (lines 145-152). -/
def getCnFields (der : Nat → Nat) (tbsPos tbsEnd : Nat) : Option Nat :=
  if (readHeader der tbsPos tbsEnd).1.dataPos = 0 ∨
      (readHeader der tbsPos tbsEnd).1.tag ≠ 160 then none
  else getCnSerial der (readHeader der tbsPos tbsEnd).2 tbsEnd

/-- The TBSCertificate SEQUENCE (lines 132-143); the uint16 sums
dataPos + length carry the mod. -/
def getCnTbs (der : Nat → Nat) (pos bound : Nat) : Option Nat :=
  if (readHeader der pos bound).1.dataPos = 0 ∨
      (readHeader der pos bound).1.tag ≠ 48 then none
  else getCnFields der (readHeader der pos bound).1.dataPos
    (((readHeader der pos bound).1.dataPos + (readHeader der pos bound).1.length) % 65536)

/-- getCnFromDer from asnDecode.cpp: the outer Certificate SEQUENCE,
then the TBSCertificate and its fields; the C statement sequence is
split into one definition per certificate field, the by-reference
position threading becoming explicit arguments. Tag constants: 0x30 =
SEQUENCE constructed, 0xa0 = context-specific constructed, 0x02 =
INTEGER, 0x31 = SET constructed, 0x06 = OID, 0x13 = PrintableString.
The length argument is a uint16_t parameter, hence the mod at entry;
the nullptr check is dropped (the memory model has no null). -/
def getCnFromDer (der : Nat → Nat) (length0 : Nat) : Option Nat :=
  if (readHeader der 0 (length0 % 65536)).1.dataPos = 0 ∨
      (readHeader der 0 (length0 % 65536)).1.tag ≠ 48 then none
  else getCnTbs der (readHeader der 0 (length0 % 65536)).1.dataPos
    (((readHeader der 0 (length0 % 65536)).1.dataPos +
      (readHeader der 0 (length0 % 65536)).1.length) % 65536)

/-- A concrete one-byte buffer whose (out-of-bounds) length byte at index 1
is 0x81: memory holds 0x30 at index 0 and 0x81 just past the buffer. -/
def c1mem : Nat → Nat := fun i => if i = 1 then 129 else 48

/-!
## command.cpp: the AT command matcher

commands_t (command.h) with the extra codes used by the command table,
cmdMode_t, commandDef_t, the command table and findCommand. Command texts
are ASCII byte lists; the input buffer is a memory function plus a length,
so that dependence on bytes beyond the declared length is expressible.
-/

/-- commands_t from command.h (extended with the codes the command table
of command.cpp uses). -/
inductive Commands where
  | CMD_ERROR
  | CMD_AT
  | CMD_AT_RST
  | CMD_AT_GMR
  | CMD_ATE
  | CMD_AT_RESTORE
  | CMD_AT_UART
  | CMD_AT_UART_CUR
  | CMD_AT_UART_DEF
  | CMD_AT_SYSRAM
  | CMD_AT_CWMODE
  | CMD_AT_CWMODE_CUR
  | CMD_AT_CWMODE_DEF
  | CMD_AT_CWJAP
  | CMD_AT_CWJAP_CUR
  | CMD_AT_CWJAP_DEF
  | CMD_AT_CWLAPOPT
  | CMD_AT_CWLAP
  | CMD_AT_CWQAP
  | CMD_AT_CWSAP
  | CMD_AT_CWSAP_CUR
  | CMD_AT_CWSAP_DEF
  | CMD_AT_CWDHCP
  | CMD_AT_CWDHCP_CUR
  | CMD_AT_CWDHCP_DEF
  | CMD_AT_CWAUTOCONN
  | CMD_AT_CIPSTAMAC
  | CMD_AT_CIPSTAMAC_CUR
  | CMD_AT_CIPSTAMAC_DEF
  | CMD_AT_CIPAPMAC
  | CMD_AT_CIPAPMAC_CUR
  | CMD_AT_CIPAPMAC_DEF
  | CMD_AT_CIPSTA
  | CMD_AT_CIPSTA_CUR
  | CMD_AT_CIPSTA_DEF
  | CMD_AT_CIPAP
  | CMD_AT_CIPAP_CUR
  | CMD_AT_CIPAP_DEF
  | CMD_AT_CWHOSTNAME
  | CMD_AT_CIPSTATUS
  | CMD_AT_CIPSTART
  | CMD_AT_CIPSSLSIZE
  | CMD_AT_CIPSEND
  | CMD_AT_CIPCLOSEMODE
  | CMD_AT_CIPCLOSE
  | CMD_AT_CIFSR
  | CMD_AT_CIPMUX
  | CMD_AT_CIPDINFO
  | CMD_AT_CIPSERVER
  | CMD_AT_CIPSERVERMAXCONN
  | CMD_AT_CIPSTO
  | CMD_AT_CIPRECVMODE
  | CMD_AT_CIPRECVDATA
  | CMD_AT_CIPRECVLEN
  | CMD_AT_CIPSNTPCFG
  | CMD_AT_CIPSNTPTIME
  | CMD_AT_CIPDNS
  | CMD_AT_CIPDNS_CUR
  | CMD_AT_CIPDNS_DEF
  | CMD_AT_SYSCPUFREQ
  | CMD_AT_RFMODE
  | CMD_AT_CIPSSLAUTH
  | CMD_AT_CIPSSLFP
  | CMD_AT_CIPSSLCERTMAX
  | CMD_AT_CIPSSLCERT
  | CMD_AT_CIPSSLMFLN
  | CMD_AT_CIPSSLSTA
  | CMD_AT_SNTPTIME
deriving DecidableEq

/-- cmdMode_t from command.cpp. -/
inductive CmdMode where
  | noChecking
  | exactMatch
  | querySet
deriving DecidableEq

/-- commandDef_t from command.cpp. -/
structure CommandDef where
  text : List Nat
  mode : CmdMode
  cmd : Commands
deriving DecidableEq

/-- The commandList table from command.cpp (66 entries, in source order). -/
def commandList : List CommandDef := [
  { text := [43, 82, 83, 84], mode := .exactMatch, cmd := .CMD_AT_RST },  -- +RST
  { text := [43, 71, 77, 82], mode := .exactMatch, cmd := .CMD_AT_GMR },  -- +GMR
  { text := [69], mode := .noChecking, cmd := .CMD_ATE },  -- E
  { text := [43, 82, 69, 83, 84, 79, 82, 69], mode := .exactMatch, cmd := .CMD_AT_RESTORE },  -- +RESTORE
  { text := [43, 85, 65, 82, 84], mode := .querySet, cmd := .CMD_AT_UART },  -- +UART
  { text := [43, 85, 65, 82, 84, 95, 67, 85, 82], mode := .querySet, cmd := .CMD_AT_UART_CUR },  -- +UART_CUR
  { text := [43, 85, 65, 82, 84, 95, 68, 69, 70], mode := .querySet, cmd := .CMD_AT_UART_DEF },  -- +UART_DEF
  { text := [43, 83, 89, 83, 82, 65, 77, 63], mode := .exactMatch, cmd := .CMD_AT_SYSRAM },  -- +SYSRAM?
  { text := [43, 67, 87, 77, 79, 68, 69], mode := .querySet, cmd := .CMD_AT_CWMODE },  -- +CWMODE
  { text := [43, 67, 87, 77, 79, 68, 69, 95, 67, 85, 82], mode := .querySet, cmd := .CMD_AT_CWMODE_CUR },  -- +CWMODE_CUR
  { text := [43, 67, 87, 77, 79, 68, 69, 95, 68, 69, 70], mode := .querySet, cmd := .CMD_AT_CWMODE_DEF },  -- +CWMODE_DEF
  { text := [43, 67, 87, 74, 65, 80], mode := .querySet, cmd := .CMD_AT_CWJAP },  -- +CWJAP
  { text := [43, 67, 87, 74, 65, 80, 95, 67, 85, 82], mode := .querySet, cmd := .CMD_AT_CWJAP_CUR },  -- +CWJAP_CUR
  { text := [43, 67, 87, 74, 65, 80, 95, 68, 69, 70], mode := .querySet, cmd := .CMD_AT_CWJAP_DEF },  -- +CWJAP_DEF
  { text := [43, 67, 87, 76, 65, 80, 79, 80, 84], mode := .querySet, cmd := .CMD_AT_CWLAPOPT },  -- +CWLAPOPT
  { text := [43, 67, 87, 76, 65, 80], mode := .exactMatch, cmd := .CMD_AT_CWLAP },  -- +CWLAP
  { text := [43, 67, 87, 81, 65, 80], mode := .exactMatch, cmd := .CMD_AT_CWQAP },  -- +CWQAP
  { text := [43, 67, 87, 83, 65, 80], mode := .querySet, cmd := .CMD_AT_CWSAP },  -- +CWSAP
  { text := [43, 67, 87, 83, 65, 80, 95, 67, 85, 82], mode := .querySet, cmd := .CMD_AT_CWSAP_CUR },  -- +CWSAP_CUR
  { text := [43, 67, 87, 83, 65, 80, 95, 68, 69, 70], mode := .querySet, cmd := .CMD_AT_CWSAP_DEF },  -- +CWSAP_DEF
  { text := [43, 67, 87, 68, 72, 67, 80], mode := .querySet, cmd := .CMD_AT_CWDHCP },  -- +CWDHCP
  { text := [43, 67, 87, 68, 72, 67, 80, 95, 67, 85, 82], mode := .querySet, cmd := .CMD_AT_CWDHCP_CUR },  -- +CWDHCP_CUR
  { text := [43, 67, 87, 68, 72, 67, 80, 95, 68, 69, 70], mode := .querySet, cmd := .CMD_AT_CWDHCP_DEF },  -- +CWDHCP_DEF
  { text := [43, 67, 87, 65, 85, 84, 79, 67, 79, 78, 78], mode := .querySet, cmd := .CMD_AT_CWAUTOCONN },  -- +CWAUTOCONN
  { text := [43, 67, 73, 80, 83, 84, 65, 77, 65, 67], mode := .querySet, cmd := .CMD_AT_CIPSTAMAC },  -- +CIPSTAMAC
  { text := [43, 67, 73, 80, 83, 84, 65, 77, 65, 67, 95, 67, 85, 82], mode := .querySet, cmd := .CMD_AT_CIPSTAMAC_CUR },  -- +CIPSTAMAC_CUR
  { text := [43, 67, 73, 80, 83, 84, 65, 77, 65, 67, 95, 68, 69, 70], mode := .querySet, cmd := .CMD_AT_CIPSTAMAC_DEF },  -- +CIPSTAMAC_DEF
  { text := [43, 67, 73, 80, 65, 80, 77, 65, 67], mode := .querySet, cmd := .CMD_AT_CIPAPMAC },  -- +CIPAPMAC
  { text := [43, 67, 73, 80, 65, 80, 77, 65, 67, 95, 67, 85, 82], mode := .querySet, cmd := .CMD_AT_CIPAPMAC_CUR },  -- +CIPAPMAC_CUR
  { text := [43, 67, 73, 80, 65, 80, 77, 65, 67, 95, 68, 69, 70], mode := .querySet, cmd := .CMD_AT_CIPAPMAC_DEF },  -- +CIPAPMAC_DEF
  { text := [43, 67, 73, 80, 83, 84, 65], mode := .querySet, cmd := .CMD_AT_CIPSTA },  -- +CIPSTA
  { text := [43, 67, 73, 80, 83, 84, 65, 95, 67, 85, 82], mode := .querySet, cmd := .CMD_AT_CIPSTA_CUR },  -- +CIPSTA_CUR
  { text := [43, 67, 73, 80, 83, 84, 65, 95, 68, 69, 70], mode := .querySet, cmd := .CMD_AT_CIPSTA_DEF },  -- +CIPSTA_DEF
  { text := [43, 67, 73, 80, 65, 80], mode := .querySet, cmd := .CMD_AT_CIPAP },  -- +CIPAP
  { text := [43, 67, 73, 80, 65, 80, 95, 67, 85, 82], mode := .querySet, cmd := .CMD_AT_CIPAP_CUR },  -- +CIPAP_CUR
  { text := [43, 67, 73, 80, 65, 80, 95, 68, 69, 70], mode := .querySet, cmd := .CMD_AT_CIPAP_DEF },  -- +CIPAP_DEF
  { text := [43, 67, 87, 72, 79, 83, 84, 78, 65, 77, 69], mode := .querySet, cmd := .CMD_AT_CWHOSTNAME },  -- +CWHOSTNAME
  { text := [43, 67, 73, 80, 83, 84, 65, 84, 85, 83], mode := .exactMatch, cmd := .CMD_AT_CIPSTATUS },  -- +CIPSTATUS
  { text := [43, 67, 73, 80, 83, 84, 65, 82, 84], mode := .noChecking, cmd := .CMD_AT_CIPSTART },  -- +CIPSTART
  { text := [43, 67, 73, 80, 83, 83, 76, 83, 73, 90, 69], mode := .querySet, cmd := .CMD_AT_CIPSSLSIZE },  -- +CIPSSLSIZE
  { text := [43, 67, 73, 80, 83, 69, 78, 68], mode := .noChecking, cmd := .CMD_AT_CIPSEND },  -- +CIPSEND
  { text := [43, 67, 73, 80, 67, 76, 79, 83, 69, 77, 79, 68, 69], mode := .noChecking, cmd := .CMD_AT_CIPCLOSEMODE },  -- +CIPCLOSEMODE
  { text := [43, 67, 73, 80, 67, 76, 79, 83, 69], mode := .noChecking, cmd := .CMD_AT_CIPCLOSE },  -- +CIPCLOSE
  { text := [43, 67, 73, 70, 83, 82], mode := .exactMatch, cmd := .CMD_AT_CIFSR },  -- +CIFSR
  { text := [43, 67, 73, 80, 77, 85, 88], mode := .querySet, cmd := .CMD_AT_CIPMUX },  -- +CIPMUX
  { text := [43, 67, 73, 80, 68, 73, 78, 70, 79], mode := .querySet, cmd := .CMD_AT_CIPDINFO },  -- +CIPDINFO
  { text := [43, 67, 73, 80, 83, 69, 82, 86, 69, 82], mode := .noChecking, cmd := .CMD_AT_CIPSERVER },  -- +CIPSERVER
  { text := [43, 67, 73, 80, 83, 69, 82, 86, 69, 82, 77, 65, 88, 67, 79, 78, 78], mode := .querySet, cmd := .CMD_AT_CIPSERVERMAXCONN },  -- +CIPSERVERMAXCONN
  { text := [43, 67, 73, 80, 83, 84, 79], mode := .querySet, cmd := .CMD_AT_CIPSTO },  -- +CIPSTO
  { text := [43, 67, 73, 80, 82, 69, 67, 86, 77, 79, 68, 69], mode := .querySet, cmd := .CMD_AT_CIPRECVMODE },  -- +CIPRECVMODE
  { text := [43, 67, 73, 80, 82, 69, 67, 86, 68, 65, 84, 65], mode := .querySet, cmd := .CMD_AT_CIPRECVDATA },  -- +CIPRECVDATA
  { text := [43, 67, 73, 80, 82, 69, 67, 86, 76, 69, 78], mode := .querySet, cmd := .CMD_AT_CIPRECVLEN },  -- +CIPRECVLEN
  { text := [43, 67, 73, 80, 83, 78, 84, 80, 67, 70, 71], mode := .querySet, cmd := .CMD_AT_CIPSNTPCFG },  -- +CIPSNTPCFG
  { text := [43, 67, 73, 80, 83, 78, 84, 80, 84, 73, 77, 69, 63], mode := .exactMatch, cmd := .CMD_AT_CIPSNTPTIME },  -- +CIPSNTPTIME?
  { text := [43, 67, 73, 80, 68, 78, 83], mode := .querySet, cmd := .CMD_AT_CIPDNS },  -- +CIPDNS
  { text := [43, 67, 73, 80, 68, 78, 83, 95, 67, 85, 82], mode := .querySet, cmd := .CMD_AT_CIPDNS_CUR },  -- +CIPDNS_CUR
  { text := [43, 67, 73, 80, 68, 78, 83, 95, 68, 69, 70], mode := .querySet, cmd := .CMD_AT_CIPDNS_DEF },  -- +CIPDNS_DEF
  { text := [43, 83, 89, 83, 67, 80, 85, 70, 82, 69, 81], mode := .querySet, cmd := .CMD_AT_SYSCPUFREQ },  -- +SYSCPUFREQ
  { text := [43, 82, 70, 77, 79, 68, 69], mode := .querySet, cmd := .CMD_AT_RFMODE },  -- +RFMODE
  { text := [43, 67, 73, 80, 83, 83, 76, 65, 85, 84, 72], mode := .querySet, cmd := .CMD_AT_CIPSSLAUTH },  -- +CIPSSLAUTH
  { text := [43, 67, 73, 80, 83, 83, 76, 70, 80], mode := .querySet, cmd := .CMD_AT_CIPSSLFP },  -- +CIPSSLFP
  { text := [43, 67, 73, 80, 83, 83, 76, 67, 69, 82, 84, 77, 65, 88], mode := .querySet, cmd := .CMD_AT_CIPSSLCERTMAX },  -- +CIPSSLCERTMAX
  { text := [43, 67, 73, 80, 83, 83, 76, 67, 69, 82, 84], mode := .noChecking, cmd := .CMD_AT_CIPSSLCERT },  -- +CIPSSLCERT
  { text := [43, 67, 73, 80, 83, 83, 76, 77, 70, 76, 78], mode := .querySet, cmd := .CMD_AT_CIPSSLMFLN },  -- +CIPSSLMFLN
  { text := [43, 67, 73, 80, 83, 83, 76, 83, 84, 65], mode := .noChecking, cmd := .CMD_AT_CIPSSLSTA },  -- +CIPSSLSTA
  { text := [43, 83, 78, 84, 80, 84, 73, 77, 69, 63], mode := .exactMatch, cmd := .CMD_AT_SNTPTIME }  -- +SNTPTIME?
  ]

/-- Arduino isAlpha on an ASCII byte. -/
def isAlphaB (c : Nat) : Bool := (65 ≤ c && c ≤ 90) || (97 ≤ c && c ≤ 122)

/-- memcmp(cmd, input + 2, strlen(cmd)) == 0: the table text occurs at
offset 2 of the input buffer. -/
def prefMatch (m : Nat → Nat) (t : List Nat) : Bool :=
  (List.range t.length).all fun k => decide (rd m (2 + k) = t.getD k 0)

/-- The for loop of findCommand over the command table. ASCII: 61 is the
equals sign, 63 the question mark. -/
def scanList (m : Nat → Nat) (inpLen : Nat) : List CommandDef → Commands
  | [] => .CMD_ERROR
  | e :: rest =>
    if prefMatch m e.text then
      match e.mode with
      | .exactMatch =>
        if inpLen = e.text.length + 4 then e.cmd else scanList m inpLen rest
      | .querySet =>
        let c := rd m (e.text.length + 2)
        if c = 61 ∨ c = 63 then
          if c = 63 ∧ inpLen ≠ e.text.length + 5 then .CMD_ERROR else e.cmd
        else scanList m inpLen rest
      | .noChecking =>
        let c := rd m (e.text.length + 2)
        if isAlphaB c then scanList m inpLen rest else e.cmd
    else scanList m inpLen rest

/-- findCommand from command.cpp. ASCII: 65 is A, 84 is T, 13 CR, 10 LF. -/
def findCommand (m : Nat → Nat) (inpLen : Nat) : Commands :=
  if inpLen < 4 ∨ rd m 0 ≠ 65 ∨ rd m 1 ≠ 84 ∨
      rd m (inpLen - 2) ≠ 13 ∨ rd m (inpLen - 1) ≠ 10 then .CMD_ERROR
  else if inpLen = 4 then .CMD_AT
  else scanList m inpLen commandList

/-- A table text contains neither CR nor LF (true of every entry). -/
def noCRLF (t : List Nat) : Bool := t.all fun b => decide (b ≠ 13) && decide (b ≠ 10)

/-- Two concrete input buffers for the matcher that agree on their first
4 bytes (the line AT CR LF) and differ at the stale byte at index 4. -/
def c10memA : Nat → Nat := toMem [65, 84, 13, 10, 99]

/-- Second buffer of the pair, differing only from index 4 on. -/
def c10memB : Nat → Nat := toMem [65, 84, 13, 10, 77, 33]

/-- Safety of entry e scanned before the QUERY_SET entry q on any
well-formed line that prefix-matches q.text with a question mark after it:
qsafe e q = true guarantees e cannot return from the scan on such a line
(checked over the concrete table by qsafeTable). -/
def qsafe (e q : CommandDef) : Bool :=
  if e.text.length ≤ q.text.length then
    if e.text = q.text.take e.text.length then
      if e.mode = .exactMatch then true
      else if e.text.length = q.text.length then false
      else if e.mode = .querySet then
        decide (¬ (q.text.getD e.text.length 0 = 61 ∨ q.text.getD e.text.length 0 = 63))
      else isAlphaB (q.text.getD e.text.length 0)
    else true
  else decide (e.text.take (q.text.length + 1) ≠ q.text ++ [63])

/-- Every entry is qsafe for every QUERY_SET entry listed after it. -/
def qsafeTable : List CommandDef → Bool
  | [] => true
  | e :: rest =>
    (rest.all fun q => match q.mode with | .querySet => qsafe e q | _ => true) &&
      qsafeTable rest

/-- Safety of entry e scanned after the EXACT entry u, on any well-formed
line that prefix-matches u.text at a total length different from
u.text.length + 4: esafe u e = true guarantees e cannot return from the
scan on such a line (checked over the concrete table by esafeTable). -/
def esafe (u e : CommandDef) : Bool :=
  if e.text.length ≤ u.text.length then
    if e.text = u.text.take e.text.length then
      if e.mode = .exactMatch then true
      else if e.text.length = u.text.length then false
      else if e.mode = .querySet then
        decide (¬ (u.text.getD e.text.length 0 = 61 ∨ u.text.getD e.text.length 0 = 63))
      else isAlphaB (u.text.getD e.text.length 0)
    else true
  else decide (e.text.take u.text.length ≠ u.text)

/-- Every entry listed after an EXACT entry is esafe for it. -/
def esafeTable : List CommandDef → Bool
  | [] => true
  | u :: rest =>
    (match u.mode with | .exactMatch => rest.all (esafe u) | _ => true) &&
      esafeTable rest

/-- ASCII bytes of the line AT+UART_CUR? CR LF (C3 counterexample). -/
def c3mem : Nat → Nat := toMem [65, 84, 43, 85, 65, 82, 84, 95, 67, 85, 82, 63, 13, 10]

/-- ASCII bytes of the line AT+CIPMUX? CR LF (C3 witness). -/
def c3wmem : Nat → Nat := toMem [65, 84, 43, 67, 73, 80, 77, 85, 88, 63, 13, 10]

/-- ASCII bytes of the line AT+CWLAPOPT=1 CR LF (C4 counterexample). -/
def c4mem : Nat → Nat := toMem [65, 84, 43, 67, 87, 76, 65, 80, 79, 80, 84, 61, 49, 13, 10]

/-- ASCII bytes of the line AT+CWLAP=1 CR LF (C4 witness). -/
def c4wmem : Nat → Nat := toMem [65, 84, 43, 67, 87, 76, 65, 80, 61, 49, 13, 10]

/-!
## Certificate store (ESP_ATMod.ino)
-/

/-- The duplicate test of checkCertificateDuplicatesAndLoad: memcmp of the
candidate's bytes against a stored entry over the candidate's data_len
bytes. The stored entry's own length is never compared; when the stored
entry is shorter than the candidate the C code reads past its end, which
is modelled as a mismatch. -/
def certMatches (cand entry : List Nat) : Bool :=
  decide (entry.take cand.length = cand)

/-- checkCertificateDuplicatesAndLoad from ESP_ATMod.ino: scans the store
in order; on the first match it returns true (duplicate) leaving the store
unchanged, otherwise it appends the candidate and returns false. -/
def checkCertificateDuplicatesAndLoad (cand : List Nat) (store : List (List Nat)) :
    Bool × List (List Nat) :=
  if store.any (certMatches cand) then (true, store)
  else (false, store ++ [cand])

/-- A byte buffer that is a complete, self-delimiting DER value: its
header declares exactly the remaining length, in the short form or the
0x82 long form (the forms certificates produced by BearSSL use). -/
def derComplete (l : List Nat) : Prop :=
  (∀ b ∈ l, b < 256) ∧ 2 ≤ l.length ∧
  ((l.getD 1 0 < 128 ∧ l.length = 2 + l.getD 1 0) ∨
   (l.getD 1 0 = 130 ∧ 4 ≤ l.length ∧ l.length = 4 + (l.getD 2 0 * 256 + l.getD 3 0)))

/-- The capacity-guarded certificate add. Both adders first compare the
store count against maximumCertificates and refuse with an error when
full: cmd_AT_CIPSSLCERT (command.cpp) before arming the PEM load, and the
startup loader in setup() (ESP_ATMod.ino) before importing a file. On a
refusal the store is untouched; otherwise the candidate goes through
checkCertificateDuplicatesAndLoad. Returns the new store and the
capacity-refusal flag. -/
def guardedCertAdd (maxCerts : Nat) (store : List (List Nat)) (cand : List Nat) :
    List (List Nat) × Bool :=
  if store.length ≥ maxCerts then (store, true)
  else ((checkCertificateDuplicatesAndLoad cand store).2, false)

/-!
## readNumber and cmd_AT_CIPSSLAUTH (command.cpp)
-/

/-- The digit loop of readNumber, with fuel (the C loop scans while the
current byte is a digit; 65536 steps cover every uint16 offset). The
accumulator lives in uint32 arithmetic and the offset in uint16. -/
def readNumberAux (m : Nat → Nat) : Nat → Nat → Nat → Bool → Bool × Nat × Nat
  | 0, offset, out, ret => (ret, offset, out)
  | fuel + 1, offset, out, ret =>
    let c := rd m offset
    if 48 ≤ c ∧ c ≤ 57 then
      readNumberAux m fuel ((offset + 1) % 65536) ((out * 10 + (c - 48)) % 4294967296) true
    else (ret, offset, out)

/-- readNumber from command.cpp: returns (ret, new offset, output). On
ret = false the C output variable is unassigned and never read by any
caller; the model returns the accumulator. -/
def readNumber (m : Nat → Nat) (offset : Nat) : Bool × Nat × Nat :=
  readNumberAux m 65536 offset 0 false

/-- cmd_AT_CIPSSLAUTH from command.cpp. Arguments: input buffer and its
count, the certificate store count (CAcert->getCount()),
fingerprintValid, and the current gsCipSslAuth. Returns the new
gsCipSslAuth and the error flag; serial output is not modelled. ASCII:
63 is the question mark (query branch, no state change), 61 the equals
sign. -/
def cmd_AT_CIPSSLAUTH (m : Nat → Nat) (cnt certCount : Nat)
    (fpValid : Bool) (auth : Nat) : Nat × Bool :=
  if rd m 13 = 63 ∧ cnt = 16 then (auth, false)
  else if rd m 13 = 61 then
    let r := readNumber m 14
    if r.1 = true ∧ r.2.2 ≤ 2 ∧ cnt = r.2.1 + 2 then
      if r.2.2 = 1 ∧ fpValid = false then (auth, true)
      else if r.2.2 = 2 ∧ certCount = 0 then (auth, true)
      else (r.2.2, false)
    else (auth, true)
  else (auth, true)

/-!
## cmd_AT_CIPSEND and the data-send branch of loop()
-/

/-- One TCP write observed at a link: the payload bytes and whether the
write consumed the full length (SEND OK) or not (SEND FAIL). -/
structure WriteEvent where
  link : Nat
  payload : List Nat
  ok : Bool
deriving DecidableEq

/-- The state the data-send path works on: gsLinkIdReading (-1 when in
command mode), dataRead, the 2048-byte send buffer, and each client's
sendLength field. -/
structure SendState where
  linkIdReading : Int
  dataRead : Nat
  sendBuffer : Nat → Nat
  sendLength : Nat → Nat

/-- The gsLinkIdReading >= 0 branch of loop() (ESP_ATMod.ino lines
501-527) for one incoming serial byte c: the byte is stored at dataRead;
when the incremented dataRead reaches the link's sendLength the buffered
payload is written to the client in one call and, whether the write
succeeds (writeOk) or fails, gsLinkIdReading reverts to -1 and dataRead
to 0. -/
def sendStep (writeOk : Bool) (st : SendState) (c : Nat) : SendState × List WriteEvent :=
  if 0 ≤ st.linkIdReading then
    let li := st.linkIdReading.toNat
    let buf := fun i => if i = st.dataRead then c else st.sendBuffer i
    let dr := st.dataRead + 1
    if dr ≥ st.sendLength li then
      ({ st with sendBuffer := buf, dataRead := 0, linkIdReading := -1 },
        [{ link := li, payload := (List.range (st.sendLength li)).map buf, ok := writeOk }])
    else ({ st with sendBuffer := buf, dataRead := dr }, [])
  else (st, [])

/-- Feed a list of serial bytes through sendStep, collecting the writes. -/
def sendRun (writeOk : Bool) (st : SendState) : List Nat → SendState × List WriteEvent
  | [] => (st, [])
  | c :: cs =>
    let s1 := sendStep writeOk st c
    let s2 := sendRun writeOk s1.1 cs
    (s2.1, s1.2 ++ s2.2)

/-- cmd_AT_CIPSEND from command.cpp. Arguments: input buffer and count,
gsCipMux, the per-link predicate client-exists-and-connected, and the
state. Returns the new state and the error flag. ASCII: 61 is the equals
sign at index 10 (after AT+CIPSEND), 44 the comma, 48 and 53 the digits
0 and 5. -/
def cmd_AT_CIPSEND (m : Nat → Nat) (cnt cipMux : Nat)
    (connected : Nat → Bool) (st : SendState) : SendState × Bool :=
  if rd m 10 ≠ 61 then (st, true)
  else
    let hasLink := 48 ≤ rd m 11 ∧ rd m 11 ≤ 53 ∧ rd m 12 = 44
    if hasLink ∧ cipMux = 0 then (st, true)
    else
      let linkId := if hasLink then rd m 11 - 48 else 0
      let offset := if hasLink then 13 else 11
      if connected linkId = false then (st, true)
      else
        let r := readNumber m offset
        if r.1 = false ∨ r.2.1 + 2 ≠ cnt then (st, true)
        else if r.2.2 > 2048 then (st, true)
        else
          ({ st with
              sendLength := fun i => if i = linkId then r.2.2 else st.sendLength i,
              linkIdReading := (linkId : Int), dataRead := 0 }, false)

/-!
## The certificate-load branch of loop() (ESP_ATMod.ino lines 529-619)
-/

/-- Outcomes of a certificate-load step that the code reports on serial. -/
inductive CertEvent where
  | certAbort        -- illegal byte or buffer overrun: ERROR, load aborted
  | certParseFailed  -- END marker found but the PEM did not parse: ERROR, loop() returns
  | certDuplicate    -- parsed but matches a stored entry: ERROR
  | certAdded        -- parsed and appended to the store: OK
deriving DecidableEq

/-- State of the certificate load: the PEM buffer contents (the first
PemCertificatePos bytes of PemCertificate), PemCertificateCount,
gsCertLoading and the certificate store. -/
structure CertLoadState where
  pem : List Nat
  pemCount : Nat
  loading : Bool
  store : List (List Nat)
deriving DecidableEq

/-- Arduino isAlphaNumeric on an ASCII byte. -/
def isAlphaNumericB (c : Nat) : Bool := isAlphaB c || (48 ≤ c && c ≤ 57)

/-- strchr("/+= -\\\r\n", c) != nullptr. The string holds slash, plus,
equals, space, minus, backslash, CR and LF; strchr also finds the
terminating NUL, so the byte 0 tests as allowed. -/
def strchrAllowed (c : Nat) : Bool :=
  decide (c = 47 ∨ c = 43 ∨ c = 61 ∨ c = 32 ∨ c = 45 ∨ c = 92 ∨ c = 13 ∨ c = 10 ∨ c = 0)

/-- The 25 ASCII bytes of the END CERTIFICATE marker. -/
def endMarker : List Nat :=
  [45, 45, 45, 45, 45, 69, 78, 68, 32, 67, 69, 82, 84, 73, 70, 73, 67, 65, 84, 69,
   45, 45, 45, 45, 45]

/-- The gsCertLoading branch of loop() for one incoming byte c. pemParse
stands for the external BearSSL PEM-to-DER conversion (X509List append):
none when the text does not yield exactly one certificate. CR (13) is
folded to LF (10), a backslash-n pair collapses to LF, consecutive LFs
collapse to one; on the END marker the certificate is processed; a byte
at or above 32 outside the allow-list aborts the load with an error,
while control bytes below 32 outside it are silently ignored. -/
def certLoadStep (pemParse : List Nat → Option (List Nat))
    (st : CertLoadState) (c : Nat) : CertLoadState × List CertEvent :=
  let cnt := st.pemCount + 1
  if isAlphaNumericB c || strchrAllowed c then
    let cp :=
      if c = 13 then ((10 : Nat), st.pem)
      else if c = 110 ∧ st.pem.length > 0 ∧ st.pem.getLast? = some 92 then
        ((10 : Nat), st.pem.dropLast)
      else (c, st.pem)
    if cp.1 ≠ 10 ∨ (cp.2.length > 0 ∧ cp.2.getLast? ≠ some 10) then
      let pem1 := cp.2 ++ [cp.1]
      if cp.1 = 45 ∧ pem1.length > 100 ∧ pem1.drop (pem1.length - 25) = endMarker then
        match pemParse pem1 with
        | none => ({ st with pem := pem1, pemCount := cnt }, [.certParseFailed])
        | some der =>
          let r := checkCertificateDuplicatesAndLoad der st.store
          if r.1 then
            ({ pem := [], pemCount := cnt, loading := false, store := r.2 }, [.certDuplicate])
          else
            ({ pem := [], pemCount := cnt, loading := false, store := r.2 }, [.certAdded])
      else if pem1.length > 4095 then
        ({ st with pem := pem1, pemCount := cnt, loading := false }, [.certAbort])
      else ({ st with pem := pem1, pemCount := cnt }, [])
    else ({ st with pemCount := cnt }, [])
  else if c < 32 then ({ st with pemCount := cnt }, [])
  else ({ st with pemCount := cnt, loading := false }, [.certAbort])

/-- Run the load over buffered serial input: after any step that clears
gsCertLoading, loop() drains and discards all remaining buffered bytes. -/
def certLoadRun (pemParse : List Nat → Option (List Nat)) :
    CertLoadState → List Nat → CertLoadState × List CertEvent
  | st, [] => (st, [])
  | st, c :: cs =>
    let s1 := certLoadStep pemParse st c
    if s1.1.loading = false then s1
    else
      let s2 := certLoadRun pemParse s1.1 cs
      (s2.1, s1.2 ++ s2.2)

/-!
## The DER grammar of C6

An abstract certificate following the grammar
Certificate -> TBSCertificate -> version, serialNumber,
signatureAlgorithm, issuer (a SEQUENCE of RDN SETs, each holding one
AttributeValueAssertion), with an encoder producing the byte string the
claim quantifies over. The encoder is the formalisation of the claim's
hypothesis (the fixed grammar), not of repository code.
-/

/-- An AttributeValueAssertion: OID bytes, the value's tag, the value. -/
structure AVA where
  oid : List Nat
  vtag : Nat
  value : List Nat
deriving DecidableEq

/-- An abstract certificate: the contents of the version, serialNumber
and signatureAlgorithm TLVs, the issuer RDNs, the rest of the
TBSCertificate after the issuer, and the rest of the certificate after
the TBSCertificate. -/
structure DerCert where
  version : List Nat
  serial : List Nat
  sigAlg : List Nat
  issuer : List AVA
  tbsRest : List Nat
  certRest : List Nat
deriving DecidableEq

/-- DER length bytes: short form below 0x80, otherwise the 0x82 long
form (two big-endian bytes; contents above 65535 are not encoded). -/
def lenBytes (n : Nat) : List Nat :=
  if n < 128 then [n] else [130, n / 256 % 256, n % 256]

/-- A TLV: tag byte, length bytes, contents. -/
def tlv (tag : Nat) (body : List Nat) : List Nat :=
  tag :: (lenBytes body.length ++ body)

/-- AttributeValueAssertion: SEQUENCE of the OID TLV and the value TLV. -/
def encodeAVA (a : AVA) : List Nat :=
  tlv 48 (tlv 6 a.oid ++ tlv a.vtag a.value)

/-- RelativeDistinguishedName: a SET holding one AVA. -/
def encodeRDN (a : AVA) : List Nat := tlv 49 (encodeAVA a)

/-- Name: a SEQUENCE of RDNs. -/
def encodeIssuer (l : List AVA) : List Nat := tlv 48 ((l.map encodeRDN).flatten)

/-- TBSCertificate: version [0], serialNumber INTEGER,
signatureAlgorithm SEQUENCE, issuer, then the remaining fields. -/
def encodeTBS (c : DerCert) : List Nat :=
  tlv 48 (tlv 160 c.version ++ (tlv 2 c.serial ++ (tlv 48 c.sigAlg ++
    (encodeIssuer c.issuer ++ c.tbsRest))))

/-- Certificate: SEQUENCE of the TBSCertificate and the remaining
fields (signatureAlgorithm and signature). -/
def encodeCert (c : DerCert) : List Nat := tlv 48 (encodeTBS c ++ c.certRest)

/-- Byte-level well-formedness of an AVA: bytes below 256 and a value
short enough for a single length byte (the code returns a pointer to the
byte just before the string and reads it as the length, assuming at most
127 bytes, as its own comment states). -/
def wfAVA (a : AVA) : Prop :=
  (∀ b ∈ a.oid, b < 256) ∧ a.vtag < 256 ∧ (∀ b ∈ a.value, b < 256) ∧
    a.value.length < 128

/-- Well-formedness of an abstract certificate: all bytes are bytes, all
AVAs well-formed, and the encoding fits a uint16 length. -/
def wfCert (c : DerCert) : Prop :=
  (∀ b ∈ c.version, b < 256) ∧ (∀ b ∈ c.serial, b < 256) ∧
  (∀ b ∈ c.sigAlg, b < 256) ∧ (∀ a ∈ c.issuer, wfAVA a) ∧
  (∀ b ∈ c.tbsRest, b < 256) ∧ (∀ b ∈ c.certRest, b < 256) ∧
  (encodeCert c).length ≤ 65535

/-- The commonName OID 2.5.4.3. -/
def cnOid : List Nat := [85, 4, 3]

/-- A PEM parse oracle that always fails, for concrete evaluations. -/
def noParse : List Nat → Option (List Nat) := fun _ => none

/-- The state right after AT+CIPSSLCERT armed the load. -/
def c9st : CertLoadState := { pem := [], pemCount := 0, loading := true, store := [] }

/-- A mid-load state (buffer ends with LF) for the C9 witness. -/
def c9wst : CertLoadState := { pem := [65, 10], pemCount := 2, loading := true, store := [] }

/-- 2 for a short-form header, 4 for the 0x82 long form. -/
def hdrSize (n : Nat) : Nat := if n < 128 then 2 else 4

/-- What getCnFromDer must return for an issuer list, per the claim: the
first RDN whose OID is commonName decides the result; a PrintableString
value yields the offset of its length byte (the byte the caller
printCertificateName reads as the length, followed by the payload), any
other tag yields none, and so does an issuer without the OID. -/
def cnSpec (der : Nat → Nat) (l : List AVA) (r : Option Nat) : Prop :=
  match l.find? (fun a => decide (a.oid = cnOid)) with
  | none => r = none
  | some a =>
    if a.vtag = 19 then
      ∃ o, r = some o ∧ rd der o = a.value.length ∧ agrees der (o + 1) a.value
    else r = none

/-- A concrete certificate for the C6 witness: one issuer RDN carrying
OID 2.5.4.3 with the PrintableString CN. -/
def c6cert : DerCert :=
  { version := [2, 1, 0], serial := [1], sigAlg := [],
    issuer := [{ oid := [85, 4, 3], vtag := 19, value := [67, 78] }],
    tbsRest := [], certRest := [] }

/-!
## Supporting lemmas
-/

lemma rd_lt (m : Nat → Nat) (i : Nat) : rd m i < 256 := Nat.mod_lt _ (by omega)

lemma agrees_nil (m : Nat → Nat) (p : Nat) : agrees m p [] := by
  intro i hi; simp at hi

lemma agrees_toMem (l : List Nat) (h : ∀ b ∈ l, b < 256) : agrees (toMem l) 0 l := by
  intro i hi
  have hb : l.getD i 0 ∈ l := by
    rw [List.getD_eq_getElem l 0 hi]; exact List.getElem_mem hi
  simp only [rd, toMem, Nat.zero_add]
  exact Nat.mod_eq_of_lt (h _ hb)

/-!
## C1: unsupported DER length bytes
-/

/-- C1 counterexample. The claim asserts that for EVERY position inside the
buffer a bad length byte makes readHeader fail WITHOUT reading any byte
outside the buffer bounds. At pos = length - 1 = 0 of a 1-byte buffer whose
following memory byte is 0x81 (neither short form nor 0x82, so the claim's
hypothesis holds), readHeader does fail, but it has already dereferenced
index 1, which lies outside the buffer: the length byte itself is read
before any bound check. -/
theorem c1_oob_read_counterexample :
    (0 < 1 ∧ 128 ≤ rd c1mem (0 + 1) ∧ rd c1mem (0 + 1) ≠ 130) ∧
    (readHeader c1mem 0 1).1.dataPos = 0 ∧
    1 ∈ readHeaderReads c1mem 0 1 ∧ ¬ 1 < 1 := by
  refine ⟨⟨by omega, by decide, by decide⟩, by decide, by decide, by omega⟩

/-- C1 amended: if the length byte position pos + 1 itself lies inside the
buffer and the length byte is neither a short-form value (< 0x80) nor 0x82
(this covers 0x80 and 0x81), then readHeader fails (dataPos = 0), leaves the
position untouched (no index wraps), and reads exactly the tag byte and the
length byte, both inside the bounds; consequently getCnFromDer fails on any
buffer whose first header carries such a length byte. -/
theorem c1_bad_length_byte_fails (der : Nat → Nat) (pos len : Nat)
    (hpos : pos + 1 < len)
    (hge : 128 ≤ rd der (pos + 1)) (hne : rd der (pos + 1) ≠ 130) :
    ((readHeader der pos len).1.dataPos = 0 ∧ (readHeader der pos len).2 = pos) ∧
    readHeaderReads der pos len = [pos, pos + 1] ∧
    (∀ i ∈ readHeaderReads der pos len, i < len) ∧
    (pos = 0 → ∀ len0, len0 % 65536 = len → getCnFromDer der len0 = none) := by
  have hlt : ¬ pos ≥ len := by omega
  have hshort : ¬ rd der (pos + 1) < 128 := by omega
  constructor
  · simp [readHeader, hlt, hshort, hne]
  refine ⟨?_, ?_, ?_⟩
  · simp [readHeaderReads, hlt, hshort, hne]
  · intro i hi
    simp [readHeaderReads, hlt, hshort, hne] at hi
    rcases hi with h | h <;> omega
  · rintro rfl len0 hlen0
    have h1 : (readHeader der 0 len).1.dataPos = 0 := by
      simp [readHeader, hlt, hshort, hne]
    simp [getCnFromDer, hlen0, h1]

/-- Witness for c1_bad_length_byte_fails at a concrete buffer: two bytes
0x30 0x81 with len = 2. -/
theorem c1_bad_length_byte_fails_witness :
    ((readHeader c1mem 0 2).1.dataPos = 0 ∧ (readHeader c1mem 0 2).2 = 0) ∧
    readHeaderReads c1mem 0 2 = [0, 0 + 1] ∧
    (∀ i ∈ readHeaderReads c1mem 0 2, i < 2) ∧
    (0 = 0 → ∀ len0, len0 % 65536 = 2 → getCnFromDer c1mem len0 = none) :=
  c1_bad_length_byte_fails c1mem 0 2 (by omega) (by decide) (by decide)

/-!
## Matcher lemmas (for C3, C4, C10)
-/

lemma prefMatch_iff (m : Nat → Nat) (t : List Nat) :
    prefMatch m t = true ↔ ∀ k < t.length, rd m (2 + k) = t.getD k 0 := by
  simp [prefMatch, List.all_eq_true, List.mem_range]

lemma table_noCRLF : ∀ e ∈ commandList, noCRLF e.text = true := by decide

lemma noCRLF_getD (t : List Nat) (ht : noCRLF t = true) (k : Nat) (hk : k < t.length) :
    t.getD k 0 ≠ 13 ∧ t.getD k 0 ≠ 10 := by
  have hmem : t.getD k 0 ∈ t := by
    rw [List.getD_eq_getElem t 0 hk]; exact List.getElem_mem hk
  have := (List.all_eq_true.mp ht) _ hmem
  simpa using this

/-- If a table text (no CR/LF) prefix-matches an input line whose byte at
inpLen - 2 is CR, the text ends at least 4 bytes before the end of the
line; in particular every byte the match inspects lies inside the line. -/
lemma prefMatch_len_le (m : Nat → Nat) (t : List Nat) (n : Nat)
    (ht : noCRLF t = true) (hCR : rd m (n - 2) = 13) (hn : 4 ≤ n)
    (hpm : prefMatch m t = true) : t.length + 4 ≤ n := by
  by_contra hcon
  have hk : n - 4 < t.length := by omega
  have hbyte := (prefMatch_iff m t).mp hpm _ hk
  have h2 : 2 + (n - 4) = n - 2 := by omega
  rw [h2, hCR] at hbyte
  exact (noCRLF_getD t ht _ hk).1 hbyte.symm

lemma prefMatch_agree (m m' : Nat → Nat) (n : Nat) (t : List Nat)
    (hag : ∀ i < n, m i = m' i) (ht : noCRLF t = true)
    (hCR : rd m (n - 2) = 13) (hn : 4 ≤ n) :
    prefMatch m t = prefMatch m' t := by
  have hCR' : rd m' (n - 2) = 13 := by
    rw [← hCR]; unfold rd; rw [hag _ (by omega)]
  by_cases h : prefMatch m t = true
  · have hlen := prefMatch_len_le m t n ht hCR hn h
    have h' : prefMatch m' t = true := by
      rw [prefMatch_iff]
      intro k hk
      have := (prefMatch_iff m t).mp h k hk
      rw [← this]; unfold rd; rw [hag _ (by omega)]
    rw [h, h']
  · by_cases h' : prefMatch m' t = true
    · have hlen := prefMatch_len_le m' t n ht hCR' hn h'
      exact absurd (by
        rw [prefMatch_iff]
        intro k hk
        have := (prefMatch_iff m' t).mp h' k hk
        rw [← this]; unfold rd; rw [hag _ (by omega)]) h
    · rw [Bool.eq_false_iff.mpr h, Bool.eq_false_iff.mpr h']

lemma scanList_agree (m m' : Nat → Nat) (n : Nat)
    (hag : ∀ i < n, m i = m' i) (hCR : rd m (n - 2) = 13) (hn : 4 ≤ n) :
    ∀ l : List CommandDef, (∀ e ∈ l, noCRLF e.text = true) →
      scanList m n l = scanList m' n l := by
  intro l
  induction l with
  | nil => intro _; rfl
  | cons e rest ih =>
    intro hl
    obtain ⟨t, mo, cm⟩ := e
    have hnc : noCRLF t = true := hl ⟨t, mo, cm⟩ (List.mem_cons_self _ _)
    have hrest : ∀ x ∈ rest, noCRLF x.text = true := fun x hx => hl x (by simp [hx])
    have hpm := prefMatch_agree m m' n t hag hnc hCR hn
    by_cases h : prefMatch m t = true
    · have h' : prefMatch m' t = true := by rw [← hpm]; exact h
      have hlen := prefMatch_len_le m t n hnc hCR hn h
      have hchar : rd m (t.length + 2) = rd m' (t.length + 2) := by
        unfold rd; rw [hag _ (by omega)]
      cases mo with
      | exactMatch => simp only [scanList, h, h', if_true, ih hrest]
      | querySet => simp only [scanList, h, h', if_true, hchar, ih hrest]
      | noChecking => simp only [scanList, h, h', if_true, hchar, ih hrest]
    · have h' : ¬ prefMatch m' t = true := by rw [← hpm]; exact h
      simp only [scanList, h, h', if_false, Bool.false_eq_true, ih hrest]

/-!
## C10: the matcher is insensitive to bytes at or past inpLen
-/

/-- C10: for every pair of input buffers agreeing on their first inpLen
bytes, findCommand returns the same command code; stale bytes at indices
at or past inpLen never influence the result. -/
theorem c10_matcher_ignores_stale_bytes (m m' : Nat → Nat) (n : Nat)
    (hag : ∀ i < n, m i = m' i) : findCommand m n = findCommand m' n := by
  by_cases h4 : n < 4
  · simp [findCommand, h4]
  push_neg at h4
  have h0 : rd m 0 = rd m' 0 := by unfold rd; rw [hag _ (by omega)]
  have h1 : rd m 1 = rd m' 1 := by unfold rd; rw [hag _ (by omega)]
  have h2 : rd m (n - 2) = rd m' (n - 2) := by unfold rd; rw [hag _ (by omega)]
  have h3 : rd m (n - 1) = rd m' (n - 1) := by unfold rd; rw [hag _ (by omega)]
  unfold findCommand
  rw [h0, h1, h2, h3]
  by_cases hc : n < 4 ∨ rd m' 0 ≠ 65 ∨ rd m' 1 ≠ 84 ∨
      rd m' (n - 2) ≠ 13 ∨ rd m' (n - 1) ≠ 10
  · simp [hc]
  · have hCR : rd m (n - 2) = 13 := by
      rw [h2]; push_neg at hc; exact hc.2.2.2.1
    rw [if_neg hc, if_neg hc]
    by_cases he : n = 4
    · simp [he]
    · rw [if_neg he, if_neg he]
      exact scanList_agree m m' n hag hCR h4 commandList table_noCRLF

/-- Witness for c10_matcher_ignores_stale_bytes: the two concrete buffers
agree on the 4 bytes of the line AT CR LF and differ beyond it. -/
theorem c10_matcher_ignores_stale_bytes_witness :
    (∀ i < 4, c10memA i = c10memB i) ∧ findCommand c10memA 4 = findCommand c10memB 4 :=
  ⟨by decide, c10_matcher_ignores_stale_bytes c10memA c10memB 4 (by decide)⟩

/-!
## C3 and C4: entry-safety lemmas for the scan
-/

lemma qsafeTable_fact : qsafeTable commandList = true := by decide

lemma esafeTable_fact : esafeTable commandList = true := by decide

lemma getD_take_lt (u : List Nat) (j k : Nat) (hkj : k < j) (hk : k < u.length) :
    (u.take j).getD k 0 = u.getD k 0 := by
  have h1 : k < (u.take j).length := by rw [List.length_take]; omega
  rw [List.getD_eq_getElem _ 0 h1, List.getD_eq_getElem _ 0 hk]
  exact List.getElem_take u

/-- A text equal to a take of a matching text also matches. -/
lemma prefMatch_take (m : Nat → Nat) (t u : List Nat)
    (hle : t.length ≤ u.length) (ht : t = u.take t.length)
    (hpm : prefMatch m u = true) : prefMatch m t = true := by
  rw [prefMatch_iff]
  intro k hk
  have hku : k < u.length := lt_of_lt_of_le hk hle
  have h2 : t.getD k 0 = u.getD k 0 := by
    conv_lhs => rw [ht]
    exact getD_take_lt u t.length k hk hku
  rw [h2]
  exact (prefMatch_iff m u).mp hpm k hku

/-- Two matching texts are prefix-comparable: the shorter is a take of the
longer (both describe the same line bytes). -/
lemma eq_take_of_prefMatch (m : Nat → Nat) (t u : List Nat)
    (hle : t.length ≤ u.length)
    (hpt : prefMatch m t = true) (hpu : prefMatch m u = true) :
    t = u.take t.length := by
  apply List.ext_getElem
  · rw [List.length_take]; omega
  · intro k hk1 hk2
    have hkt : k < t.length := hk1
    have hku : k < u.length := by omega
    have e1 := (prefMatch_iff m t).mp hpt k hkt
    have e2 := (prefMatch_iff m u).mp hpu k hku
    rw [List.getD_eq_getElem _ 0 hkt] at e1
    rw [List.getD_eq_getElem _ 0 hku] at e2
    rw [List.getElem_take u, ← e1, ← e2]

/-- A matching text longer than a matching QUERY_SET text whose following
line byte is the question mark must start with that text plus the question
mark. -/
lemma take_concat_of_prefMatch (m : Nat → Nat) (t u : List Nat)
    (hlt : u.length < t.length)
    (hpt : prefMatch m t = true) (hpu : prefMatch m u = true)
    (hqm : rd m (u.length + 2) = 63) :
    t.take (u.length + 1) = u ++ [63] := by
  apply List.ext_getElem
  · rw [List.length_take]; simp; omega
  · intro k hk1 hk2
    have hky : k < u.length + 1 := by rw [List.length_take] at hk1; omega
    have hkt : k < t.length := by omega
    have e1 := (prefMatch_iff m t).mp hpt k hkt
    rw [List.getD_eq_getElem _ 0 hkt] at e1
    rw [List.getElem_take t]
    rcases Nat.lt_or_ge k u.length with hku | hku
    · have e2 := (prefMatch_iff m u).mp hpu k hku
      rw [List.getD_eq_getElem _ 0 hku] at e2
      rw [List.getElem_append_left hku, ← e1, ← e2]
    · have hkeq : k = u.length := by omega
      rw [List.getElem_concat_length u 63 k hkeq ?h2]
      case h2 => simp; omega
      rw [← e1]
      have : 2 + k = u.length + 2 := by omega
      rw [this, hqm]

/-- An entry whose text does not match the line is skipped by the scan. -/
lemma scan_cons_not_pm (m : Nat → Nat) (n : Nat) (e : CommandDef)
    (h : ¬ prefMatch m e.text = true) :
    ∀ l, scanList m n (e :: l) = scanList m n l := by
  intro l
  obtain ⟨t, mo, cm⟩ := e
  cases mo <;> simp [scanList, h]

/-- Soundness of qsafe: on a well-formed line that matches q.text with the
question mark after it, an entry with qsafe e q never returns from the
scan. -/
lemma qsafe_sound (m : Nat → Nat) (n : Nat) (e q : CommandDef)
    (hsafe : qsafe e q = true)
    (hpu : prefMatch m q.text = true)
    (hqm : rd m (q.text.length + 2) = 63)
    (hn5 : q.text.length + 5 ≤ n) :
    ∀ l, scanList m n (e :: l) = scanList m n l := by
  intro l
  by_cases hpm : prefMatch m e.text = true
  case neg => exact scan_cons_not_pm m n e hpm l
  obtain ⟨t, mo, cm⟩ := e
  simp only at hpm
  unfold qsafe at hsafe
  simp only at hsafe
  rcases le_or_lt t.length q.text.length with hle | hlt
  · rw [if_pos hle] at hsafe
    have hteq : t = q.text.take t.length := eq_take_of_prefMatch m t q.text hle hpm hpu
    rw [if_pos hteq] at hsafe
    cases mo with
    | exactMatch =>
      simp only [scanList, hpm, if_true]
      rw [if_neg (by omega : ¬ n = t.length + 4)]
    | querySet =>
      rw [if_neg (by simp : ¬ (CmdMode.querySet = CmdMode.exactMatch))] at hsafe
      have hne : ¬ t.length = q.text.length := by
        intro hcon
        rw [if_pos hcon] at hsafe
        exact Bool.false_ne_true hsafe
      rw [if_neg hne] at hsafe
      rw [if_pos rfl] at hsafe
      have hcond := of_decide_eq_true hsafe
      have hchar : rd m (t.length + 2) = q.text.getD t.length 0 := by
        have := (prefMatch_iff m q.text).mp hpu t.length (by omega)
        rw [← this]; ring_nf
      simp only [scanList, hpm, if_true, hchar]
      rw [if_neg hcond]
    | noChecking =>
      rw [if_neg (by simp : ¬ (CmdMode.noChecking = CmdMode.exactMatch))] at hsafe
      have hne : ¬ t.length = q.text.length := by
        intro hcon
        rw [if_pos hcon] at hsafe
        exact Bool.false_ne_true hsafe
      rw [if_neg hne] at hsafe
      rw [if_neg (by simp : ¬ (CmdMode.noChecking = CmdMode.querySet))] at hsafe
      have hchar : rd m (t.length + 2) = q.text.getD t.length 0 := by
        have := (prefMatch_iff m q.text).mp hpu t.length (by omega)
        rw [← this]; ring_nf
      simp only [scanList, hpm, if_true, hchar, hsafe, if_true]
  · rw [if_neg (by omega : ¬ t.length ≤ q.text.length)] at hsafe
    exact absurd (take_concat_of_prefMatch m t q.text hlt hpm hpu hqm)
      (of_decide_eq_true hsafe)

/-- Soundness of esafe: on a well-formed line that matches the EXACT text
u.text at total length at least u.text.length + 5, an entry with esafe u e
never returns from the scan. -/
lemma esafe_sound (m : Nat → Nat) (n : Nat) (u e : CommandDef)
    (hsafe : esafe u e = true)
    (hpu : prefMatch m u.text = true)
    (hn5 : u.text.length + 5 ≤ n) :
    ∀ l, scanList m n (e :: l) = scanList m n l := by
  intro l
  by_cases hpm : prefMatch m e.text = true
  case neg => exact scan_cons_not_pm m n e hpm l
  obtain ⟨t, mo, cm⟩ := e
  simp only at hpm
  unfold esafe at hsafe
  simp only at hsafe
  rcases le_or_lt t.length u.text.length with hle | hlt
  · rw [if_pos hle] at hsafe
    have hteq : t = u.text.take t.length := eq_take_of_prefMatch m t u.text hle hpm hpu
    rw [if_pos hteq] at hsafe
    cases mo with
    | exactMatch =>
      simp only [scanList, hpm, if_true]
      rw [if_neg (by omega : ¬ n = t.length + 4)]
    | querySet =>
      rw [if_neg (by simp : ¬ (CmdMode.querySet = CmdMode.exactMatch))] at hsafe
      have hne : ¬ t.length = u.text.length := by
        intro hcon
        rw [if_pos hcon] at hsafe
        exact Bool.false_ne_true hsafe
      rw [if_neg hne] at hsafe
      rw [if_pos rfl] at hsafe
      have hcond := of_decide_eq_true hsafe
      have hchar : rd m (t.length + 2) = u.text.getD t.length 0 := by
        have := (prefMatch_iff m u.text).mp hpu t.length (by omega)
        rw [← this]; ring_nf
      simp only [scanList, hpm, if_true, hchar]
      rw [if_neg hcond]
    | noChecking =>
      rw [if_neg (by simp : ¬ (CmdMode.noChecking = CmdMode.exactMatch))] at hsafe
      have hne : ¬ t.length = u.text.length := by
        intro hcon
        rw [if_pos hcon] at hsafe
        exact Bool.false_ne_true hsafe
      rw [if_neg hne] at hsafe
      rw [if_neg (by simp : ¬ (CmdMode.noChecking = CmdMode.querySet))] at hsafe
      have hchar : rd m (t.length + 2) = u.text.getD t.length 0 := by
        have := (prefMatch_iff m u.text).mp hpu t.length (by omega)
        rw [← this]; ring_nf
      simp only [scanList, hpm, if_true, hchar, hsafe, if_true]
  · rw [if_neg (by omega : ¬ t.length ≤ u.text.length)] at hsafe
    have := eq_take_of_prefMatch m u.text t (by omega) hpu hpm
    exact absurd this.symm (of_decide_eq_true hsafe)

lemma qsafeTable_sound : ∀ (l pre post : List CommandDef) (q : CommandDef),
    qsafeTable l = true → l = pre ++ q :: post → q.mode = .querySet →
    ∀ e ∈ pre, qsafe e q = true := by
  intro l
  induction l with
  | nil =>
    intro pre post q _ hsplit _ e he
    cases pre with
    | nil => simp at he
    | cons a b => simp at hsplit
  | cons e0 rest ih =>
    intro pre post q htab hsplit hq e he
    have htab' := (Bool.and_eq_true _ _).mp htab
    cases pre with
    | nil => simp at he
    | cons p pre' =>
      rw [List.cons_append, List.cons.injEq] at hsplit
      obtain ⟨rfl, hrest⟩ := hsplit
      rcases List.mem_cons.mp he with rfl | he'
      · have hqmem : q ∈ rest := by
          rw [hrest]; exact List.mem_append_right _ (List.mem_cons_self _ _)
        have hmatch := (List.all_eq_true.mp htab'.1) _ hqmem
        rw [hq] at hmatch
        exact hmatch
      · exact ih pre' post q htab'.2 hrest hq e he'

lemma esafeTable_sound : ∀ (l pre post : List CommandDef) (u : CommandDef),
    esafeTable l = true → l = pre ++ u :: post → u.mode = .exactMatch →
    ∀ e ∈ post, esafe u e = true := by
  intro l
  induction l with
  | nil =>
    intro pre post u _ hsplit _ e he
    cases pre <;> simp at hsplit
  | cons u0 rest ih =>
    intro pre post u htab hsplit hu e he
    have htab' := (Bool.and_eq_true _ _).mp htab
    cases pre with
    | nil =>
      rw [List.nil_append, List.cons.injEq] at hsplit
      obtain ⟨rfl, rfl⟩ := hsplit
      have hmatch := htab'.1
      rw [hu] at hmatch
      exact (List.all_eq_true.mp hmatch) _ he
    | cons p pre' =>
      rw [List.cons_append, List.cons.injEq] at hsplit
      exact ih pre' post u htab'.2 hsplit.2 hu e he

lemma scan_append_skip (m : Nat → Nat) (n : Nat) :
    ∀ (pre rest : List CommandDef),
      (∀ e ∈ pre, ∀ l, scanList m n (e :: l) = scanList m n l) →
      scanList m n (pre ++ rest) = scanList m n rest := by
  intro pre
  induction pre with
  | nil => intro rest _; rfl
  | cons e pre' ih =>
    intro rest h
    rw [List.cons_append, h e (List.mem_cons_self _ _) (pre' ++ rest)]
    exact ih rest fun x hx => h x (List.mem_cons_of_mem _ hx)

/-!
## C3: QUERY_SET matching
-/

/-- C3 counterexample. The line AT+UART_CUR? CR LF prefix-matches the
QUERY_SET entry +UART with the byte after the prefix being the underscore
(95), which is neither the equals sign nor the question mark; the claim
says such a line yields ERROR, but findCommand returns CMD_AT_UART_CUR,
found at a later table entry. -/
theorem c3_counterexample :
    (⟨[43, 85, 65, 82, 84], .querySet, .CMD_AT_UART⟩ : CommandDef) ∈ commandList ∧
    prefMatch c3mem [43, 85, 65, 82, 84] = true ∧
    rd c3mem ([43, 85, 65, 82, 84].length + 2) = 95 ∧
    ¬ (95 = 61 ∨ 95 = 63) ∧
    rd c3mem 0 = 65 ∧ rd c3mem 1 = 84 ∧ rd c3mem 12 = 13 ∧ rd c3mem 13 = 10 ∧
    findCommand c3mem 14 = .CMD_AT_UART_CUR ∧
    Commands.CMD_AT_UART_CUR ≠ .CMD_ERROR := by
  refine ⟨by decide, by decide, by decide, by decide, by decide, by decide,
    by decide, by decide, by decide, by decide⟩

/-- C3 amended: for every well-formed input line (starts with AT, ends
with CR LF) whose bytes from offset 2 match the prefix of a QUERY_SET
table entry q: if the byte after the prefix is the question mark then
findCommand returns q's command code exactly when the total line length
equals prefix length + 5 and CMD_ERROR for any other length; if the byte
after the prefix is neither the question mark nor the equals sign, the
entry q yields no match and the scan merely continues with the remaining
entries (so the overall result is decided by the other table entries, not
necessarily ERROR). -/
theorem c3_querySet_question (m : Nat → Nat) (n : Nat)
    (pre post : List CommandDef) (q : CommandDef)
    (hsplit : commandList = pre ++ q :: post) (hq : q.mode = .querySet)
    (hn : 4 ≤ n) (hA : rd m 0 = 65) (hT : rd m 1 = 84)
    (hCR : rd m (n - 2) = 13) (hLF : rd m (n - 1) = 10)
    (hpm : prefMatch m q.text = true) :
    (rd m (q.text.length + 2) = 63 →
      findCommand m n = if n = q.text.length + 5 then q.cmd else .CMD_ERROR) ∧
    (rd m (q.text.length + 2) ≠ 61 ∧ rd m (q.text.length + 2) ≠ 63 →
      ∀ l, scanList m n (q :: l) = scanList m n l) := by
  have hqmem : q ∈ commandList := by
    rw [hsplit]; exact List.mem_append_right _ (List.mem_cons_self _ _)
  have hnc := table_noCRLF q hqmem
  have hlen4 := prefMatch_len_le m q.text n hnc hCR hn hpm
  constructor
  · intro hqm
    have hn5 : q.text.length + 5 ≤ n := by
      rcases Nat.lt_or_ge (q.text.length + 4) n with h | h
      · omega
      · exfalso
        have heq := hqm
        rw [show q.text.length + 2 = n - 2 by omega, hCR] at heq
        omega
    have hcond : ¬ (n < 4 ∨ rd m 0 ≠ 65 ∨ rd m 1 ≠ 84 ∨
        rd m (n - 2) ≠ 13 ∨ rd m (n - 1) ≠ 10) := by
      push_neg
      exact ⟨by omega, hA, hT, hCR, hLF⟩
    have hne4 : ¬ n = 4 := by omega
    unfold findCommand
    rw [if_neg hcond, if_neg hne4, hsplit]
    rw [scan_append_skip m n pre (q :: post) ?hpre]
    case hpre =>
      intro e he l
      exact qsafe_sound m n e q
        (qsafeTable_sound commandList pre post q qsafeTable_fact hsplit hq e he)
        hpm hqm hn5 l
    obtain ⟨u, mo, cm⟩ := q
    have hmo : mo = CmdMode.querySet := hq
    subst hmo
    simp only at hpm hqm ⊢
    simp only [scanList, hpm, if_true, hqm]
    by_cases hl : n = u.length + 5 <;> simp [hl]
  · intro ⟨h61, h63⟩ l
    obtain ⟨u, mo, cm⟩ := q
    have hmo : mo = CmdMode.querySet := hq
    subst hmo
    simp only at hpm h61 h63
    simp only [scanList, hpm, if_true]
    rw [if_neg (by omega : ¬ (rd m (u.length + 2) = 61 ∨ rd m (u.length + 2) = 63))]

/-- Witness for c3_querySet_question: the line AT+CIPMUX? CR LF of length
12 = 7 + 5, which returns CMD_AT_CIPMUX. -/
theorem c3_querySet_question_witness :
    (rd c3wmem ([43, 67, 73, 80, 77, 85, 88].length + 2) = 63 →
      findCommand c3wmem 12 =
        if 12 = [43, 67, 73, 80, 77, 85, 88].length + 5 then
          Commands.CMD_AT_CIPMUX else .CMD_ERROR) ∧
    (rd c3wmem ([43, 67, 73, 80, 77, 85, 88].length + 2) ≠ 61 ∧
        rd c3wmem ([43, 67, 73, 80, 77, 85, 88].length + 2) ≠ 63 →
      ∀ l, scanList c3wmem 12
          ((⟨[43, 67, 73, 80, 77, 85, 88], .querySet, .CMD_AT_CIPMUX⟩ : CommandDef) :: l) =
        scanList c3wmem 12 l) :=
  c3_querySet_question c3wmem 12 (commandList.take 44) (commandList.drop 45)
    ⟨[43, 67, 73, 80, 77, 85, 88], .querySet, .CMD_AT_CIPMUX⟩
    (by decide) rfl (by omega) (by decide) (by decide) (by decide) (by decide) (by decide)

/-!
## C4: EXACT matching at a wrong length
-/

/-- C4 counterexample. The line AT+CWLAPOPT=1 CR LF (length 15) has, at
offset 2, bytes matching the prefix of the EXACT-match entry +CWLAP, and
15 differs from 6 + 4; the claim says findCommand must return CMD_ERROR,
but the earlier table entry +CWLAPOPT matches and findCommand returns
CMD_AT_CWLAPOPT. -/
theorem c4_counterexample :
    (⟨[43, 67, 87, 76, 65, 80], .exactMatch, .CMD_AT_CWLAP⟩ : CommandDef) ∈ commandList ∧
    prefMatch c4mem [43, 67, 87, 76, 65, 80] = true ∧
    15 ≠ [43, 67, 87, 76, 65, 80].length + 4 ∧
    rd c4mem 0 = 65 ∧ rd c4mem 1 = 84 ∧ rd c4mem 13 = 13 ∧ rd c4mem 14 = 10 ∧
    findCommand c4mem 15 = .CMD_AT_CWLAPOPT ∧
    Commands.CMD_AT_CWLAPOPT ≠ .CMD_ERROR := by
  refine ⟨by decide, by decide, by decide, by decide, by decide, by decide,
    by decide, by decide, by decide⟩

/-- C4 amended: for every well-formed input line whose bytes from offset 2
match the prefix of an EXACT-match entry u at a total length different
from prefix length + 4, and which matches the prefix of no entry listed
before u, findCommand returns CMD_ERROR: the loop does scan the later
entries, but in this table none of them can match such a line. -/
theorem c4_exact_wrong_length (m : Nat → Nat) (n : Nat)
    (pre post : List CommandDef) (u : CommandDef)
    (hsplit : commandList = pre ++ u :: post) (hu : u.mode = .exactMatch)
    (hn : 4 ≤ n) (hA : rd m 0 = 65) (hT : rd m 1 = 84)
    (hCR : rd m (n - 2) = 13) (hLF : rd m (n - 1) = 10)
    (hpm : prefMatch m u.text = true)
    (hlen : n ≠ u.text.length + 4)
    (hpre : ∀ e ∈ pre, ¬ prefMatch m e.text = true) :
    findCommand m n = .CMD_ERROR := by
  have humem : u ∈ commandList := by
    rw [hsplit]; exact List.mem_append_right _ (List.mem_cons_self _ _)
  have hnc := table_noCRLF u humem
  have hlen4 := prefMatch_len_le m u.text n hnc hCR hn hpm
  have hn5 : u.text.length + 5 ≤ n := by omega
  have hcond : ¬ (n < 4 ∨ rd m 0 ≠ 65 ∨ rd m 1 ≠ 84 ∨
      rd m (n - 2) ≠ 13 ∨ rd m (n - 1) ≠ 10) := by
    push_neg
    exact ⟨by omega, hA, hT, hCR, hLF⟩
  have hne4 : ¬ n = 4 := by omega
  unfold findCommand
  rw [if_neg hcond, if_neg hne4, hsplit]
  rw [scan_append_skip m n pre (u :: post) fun e he l => scan_cons_not_pm m n e (hpre e he) l]
  have hstep : scanList m n (u :: post) = scanList m n post := by
    obtain ⟨t, mo, cm⟩ := u
    have hmo : mo = CmdMode.exactMatch := hu
    subst hmo
    simp only at hpm hlen
    simp only [scanList, hpm, if_true]
    rw [if_neg (by omega : ¬ n = t.length + 4)]
  rw [hstep]
  rw [show scanList m n post = scanList m n (post ++ []) by rw [List.append_nil]]
  rw [scan_append_skip m n post [] ?hpost]
  case hpost =>
    intro e he l
    exact esafe_sound m n u e
      (esafeTable_sound commandList pre post u esafeTable_fact hsplit hu e he)
      hpm hn5 l
  rfl

/-- Witness for c4_exact_wrong_length: the line AT+CWLAP=1 CR LF of length
12, matching the EXACT entry +CWLAP at a wrong length and no earlier
entry; the result is CMD_ERROR. -/
theorem c4_exact_wrong_length_witness : findCommand c4wmem 12 = .CMD_ERROR :=
  c4_exact_wrong_length c4wmem 12 (commandList.take 15) (commandList.drop 16)
    ⟨[43, 67, 87, 76, 65, 80], .exactMatch, .CMD_AT_CWLAP⟩
    (by decide) rfl (by omega) (by decide) (by decide) (by decide) (by decide)
    (by decide) (by decide) (by decide)

/-!
## C5: duplicate detection in the certificate store
-/

lemma take_len_le {cand e : List Nat} (h : e.take cand.length = cand) :
    cand.length ≤ e.length := by
  have hlen := congrArg List.length h
  rw [List.length_take] at hlen
  omega

/-- For complete, self-delimiting DER values the prefix comparison the
code performs coincides with byte-identity: a shared header determines a
shared total length. -/
lemma certMatches_iff (cand e : List Nat)
    (hc : derComplete cand) (he : derComplete e) :
    certMatches cand e = true ↔ cand = e := by
  constructor
  · intro h
    have h' : e.take cand.length = cand := of_decide_eq_true h
    have hle : cand.length ≤ e.length := take_len_le h'
    have hbyte : ∀ i < cand.length, e.getD i 0 = cand.getD i 0 := by
      intro i hi
      conv_rhs => rw [← h']
      exact (getD_take_lt e cand.length i hi (by omega)).symm
    obtain ⟨hb, h2, hform⟩ := hc
    obtain ⟨hb', h2', hform'⟩ := he
    have hlen : e.length = cand.length := by
      have e1 : e.getD 1 0 = cand.getD 1 0 := hbyte 1 (by omega)
      rcases hform with ⟨hlt, hl⟩ | ⟨heq, h4, hl⟩
      · rcases hform' with ⟨hlt', hl'⟩ | ⟨heq', h4', hl'⟩ <;> omega
      · rcases hform' with ⟨hlt', hl'⟩ | ⟨heq', h4', hl'⟩
        · omega
        · have e2 : e.getD 2 0 = cand.getD 2 0 := hbyte 2 (by omega)
          have e3 : e.getD 3 0 = cand.getD 3 0 := hbyte 3 (by omega)
          omega
    rw [← h', ← hlen, List.take_length]
  · rintro rfl
    simp [certMatches, List.take_length]

/-- C5: for well-formed (self-delimiting) DER certificates, the add
operation reports DUPLICATE exactly when the candidate is byte-identical
to a stored entry, and then leaves the store unchanged; when it is not a
duplicate the candidate is appended; consequently adding the same
certificate twice reports DUPLICATE the second time and the store is
unchanged by the second add. -/
theorem c5_duplicate_iff_byte_identical (cand : List Nat) (store : List (List Nat))
    (hc : derComplete cand) (hs : ∀ e ∈ store, derComplete e) :
    ((checkCertificateDuplicatesAndLoad cand store).1 = true ↔ cand ∈ store) ∧
    ((checkCertificateDuplicatesAndLoad cand store).1 = true →
      (checkCertificateDuplicatesAndLoad cand store).2 = store) ∧
    ((checkCertificateDuplicatesAndLoad cand store).1 = false →
      (checkCertificateDuplicatesAndLoad cand store).2 = store ++ [cand]) ∧
    (checkCertificateDuplicatesAndLoad cand
        (checkCertificateDuplicatesAndLoad cand store).2).1 = true ∧
    (checkCertificateDuplicatesAndLoad cand
        (checkCertificateDuplicatesAndLoad cand store).2).2 =
      (checkCertificateDuplicatesAndLoad cand store).2 := by
  have hany : store.any (certMatches cand) = true ↔ cand ∈ store := by
    rw [List.any_eq_true]
    constructor
    · rintro ⟨e, he, hm⟩
      exact ((certMatches_iff cand e hc (hs e he)).mp hm) ▸ he
    · intro hmem
      exact ⟨cand, hmem, (certMatches_iff cand cand hc hc).mpr rfl⟩
  by_cases h : store.any (certMatches cand) = true
  · have hmem : cand ∈ store := hany.mp h
    refine ⟨?_, ?_, ?_, ?_, ?_⟩ <;>
      simp [checkCertificateDuplicatesAndLoad, h, hmem]
  · have hmem : cand ∉ store := fun hm => h (hany.mpr hm)
    have hsecond : (store ++ [cand]).any (certMatches cand) = true := by
      rw [List.any_eq_true]
      exact ⟨cand, by simp, (certMatches_iff cand cand hc hc).mpr rfl⟩
    refine ⟨?_, ?_, ?_, ?_, ?_⟩ <;>
      simp [checkCertificateDuplicatesAndLoad, h, hmem, hsecond]

/-- Witness for c5_duplicate_iff_byte_identical: a two-byte and a
three-byte complete DER value. -/
theorem c5_duplicate_iff_byte_identical_witness :
    ((checkCertificateDuplicatesAndLoad [48, 1, 5] [[48, 0]]).1 = true ↔
        [48, 1, 5] ∈ [[48, 0]]) ∧
    ((checkCertificateDuplicatesAndLoad [48, 1, 5] [[48, 0]]).1 = true →
      (checkCertificateDuplicatesAndLoad [48, 1, 5] [[48, 0]]).2 = [[48, 0]]) ∧
    ((checkCertificateDuplicatesAndLoad [48, 1, 5] [[48, 0]]).1 = false →
      (checkCertificateDuplicatesAndLoad [48, 1, 5] [[48, 0]]).2 =
        [[48, 0]] ++ [[48, 1, 5]]) ∧
    (checkCertificateDuplicatesAndLoad [48, 1, 5]
        (checkCertificateDuplicatesAndLoad [48, 1, 5] [[48, 0]]).2).1 = true ∧
    (checkCertificateDuplicatesAndLoad [48, 1, 5]
        (checkCertificateDuplicatesAndLoad [48, 1, 5] [[48, 0]]).2).2 =
      (checkCertificateDuplicatesAndLoad [48, 1, 5] [[48, 0]]).2 :=
  c5_duplicate_iff_byte_identical [48, 1, 5] [[48, 0]]
    (by refine ⟨by decide, by decide, Or.inl ⟨by decide, by decide⟩⟩)
    (by intro e he
        simp at he
        subst he
        exact ⟨by decide, by decide, Or.inl ⟨by decide, by decide⟩⟩)

/-!
## C8: the capacity bound of the certificate store
-/

/-- C8: every adder checks the count against the maximum before
accepting, so a store within capacity stays within capacity, and a full
store rejects the addition with an error leaving the store unchanged (in
particular, with maximum 2 and a store of size 2 a third add is refused
and the size stays 2). -/
theorem c8_capacity (maxCerts : Nat) (store : List (List Nat)) (cand : List Nat)
    (hinv : store.length ≤ maxCerts) :
    (guardedCertAdd maxCerts store cand).1.length ≤ maxCerts ∧
    (store.length = maxCerts →
      guardedCertAdd maxCerts store cand = (store, true)) := by
  constructor
  · unfold guardedCertAdd
    by_cases h : store.length ≥ maxCerts
    · rw [if_pos h]
      exact hinv
    · rw [if_neg h]
      unfold checkCertificateDuplicatesAndLoad
      by_cases h2 : store.any (certMatches cand) = true
      · simp [h2]; omega
      · simp [h2]; omega
  · intro heq
    unfold guardedCertAdd
    rw [if_pos (by omega)]

/-- Witness for c8_capacity: maximum 2, a store already holding two
distinct certificates, and a third distinct candidate. -/
theorem c8_capacity_witness :
    (guardedCertAdd 2 [[48, 0], [48, 1, 5]] [48, 1, 7]).1.length ≤ 2 ∧
    ([[48, 0], [48, 1, 5]].length = 2 →
      guardedCertAdd 2 [[48, 0], [48, 1, 5]] [48, 1, 7] =
        ([[48, 0], [48, 1, 5]], true)) :=
  c8_capacity 2 [[48, 0], [48, 1, 5]] [48, 1, 7] (by decide)

/-!
## C7: TLS auth mode prerequisites
-/

/-- C7: a set command AT+CIPSSLAUTH=v (v parsed by readNumber, v at most
2, exact length): setting FINGERPRINT (1) succeeds exactly when a valid
fingerprint is stored, setting CHAIN (2) exactly when the store is
non-empty; whenever the prerequisite fails the reply is ERROR and
gsCipSslAuth keeps its previous value; NONE (0) always succeeds. -/
theorem c7_sslauth_prerequisites (m : Nat → Nat) (cnt certCount : Nat)
    (fpValid : Bool) (auth : Nat) (off v : Nat)
    (hset : rd m 13 = 61)
    (hr : readNumber m 14 = (true, off, v))
    (hv : v ≤ 2) (hcnt : cnt = off + 2) :
    (v = 1 →
      cmd_AT_CIPSSLAUTH m cnt certCount fpValid auth =
        if fpValid then (1, false) else (auth, true)) ∧
    (v = 2 →
      cmd_AT_CIPSSLAUTH m cnt certCount fpValid auth =
        if certCount = 0 then (auth, true) else (2, false)) ∧
    (v = 0 → cmd_AT_CIPSSLAUTH m cnt certCount fpValid auth = (0, false)) := by
  have hne : ¬ (rd m 13 = 63 ∧ cnt = 16) := by
    rintro ⟨h63, _⟩
    omega
  refine ⟨?_, ?_, ?_⟩
  · rintro rfl
    cases fpValid <;>
      simp [cmd_AT_CIPSSLAUTH, hne, hset, hr, hcnt]
  · rintro rfl
    by_cases hcc : certCount = 0 <;>
      simp [cmd_AT_CIPSSLAUTH, hne, hset, hr, hcnt, hcc]
  · rintro rfl
    simp [cmd_AT_CIPSSLAUTH, hne, hset, hr, hcnt]

/-- Concrete input line AT+CIPSSLAUTH=1 CR LF for the C7 witness. -/
def c7mem : Nat → Nat :=
  toMem [65, 84, 43, 67, 73, 80, 83, 83, 76, 65, 85, 84, 72, 61, 49, 13, 10]

/-- Witness for c7_sslauth_prerequisites: setting mode 1 with no valid
fingerprint errors and keeps the previous mode 0. -/
theorem c7_sslauth_prerequisites_witness :
    (1 = 1 →
      cmd_AT_CIPSSLAUTH c7mem 17 0 false 0 =
        if false then (1, false) else (0, true)) ∧
    (1 = 2 →
      cmd_AT_CIPSSLAUTH c7mem 17 0 false 0 =
        if (0 : Nat) = 0 then (0, true) else (2, false)) ∧
    (1 = 0 → cmd_AT_CIPSSLAUTH c7mem 17 0 false 0 = (0, false)) :=
  c7_sslauth_prerequisites c7mem 17 0 false 0 15 1
    (by decide) (by decide) (by decide) (by decide)

/-!
## C2: the CIPSEND data mode
-/

lemma map_range_getD (bs : List Nat) :
    (List.range bs.length).map (fun i => bs.getD i 0) = bs := by
  apply List.ext_getElem
  · simp
  · intro k h1 h2
    simp only [List.getElem_map, List.getElem_range]
    exact (List.getD_eq_getElem bs 0 h2).symm ▸ rfl

/-- A mid-run byte in data mode: stored in the buffer, dataRead advances,
no write happens. -/
lemma sendStep_armed_mid (writeOk : Bool) (st : SendState) (c L N d : Nat)
    (hL : st.linkIdReading = (L : Int)) (hd : st.dataRead = d)
    (hsl : st.sendLength L = N) (hlt : d + 1 < N) :
    sendStep writeOk st c =
      ({ st with
          sendBuffer := (fun i => if i = d then c else st.sendBuffer i),
          dataRead := d + 1 }, []) := by
  unfold sendStep
  rw [if_pos (by rw [hL]; exact Int.natCast_nonneg L)]
  have htn : st.linkIdReading.toNat = L := by rw [hL]; exact Int.toNat_natCast L
  simp only [htn, hsl, hd]
  rw [if_neg (by omega : ¬ d + 1 ≥ N)]

/-- The final byte in data mode: the write fires once with the buffered
payload; gsLinkIdReading reverts to -1 and dataRead to 0 regardless of
the write outcome. -/
lemma sendStep_armed_last (writeOk : Bool) (st : SendState) (c L N d : Nat)
    (hL : st.linkIdReading = (L : Int)) (hd : st.dataRead = d)
    (hsl : st.sendLength L = N) (hge : d + 1 ≥ N) :
    sendStep writeOk st c =
      ({ st with
          sendBuffer := (fun i => if i = d then c else st.sendBuffer i),
          dataRead := 0,
          linkIdReading := -1 },
        [{ link := L,
           payload := (List.range N).map fun i => if i = d then c else st.sendBuffer i,
           ok := writeOk }]) := by
  unfold sendStep
  rw [if_pos (by rw [hL]; exact Int.natCast_nonneg L)]
  have htn : st.linkIdReading.toNat = L := by rw [hL]; exact Int.toNat_natCast L
  simp only [htn, hsl, hd]
  rw [if_pos (by omega : d + 1 ≥ N)]

/-- Any strict prefix of the expected data leaves the armed state armed,
produces no write, and advances dataRead by exactly its length. -/
lemma sendRun_partial (writeOk : Bool) (L N : Nat) :
    ∀ (bs : List Nat) (st : SendState) (d : Nat),
      st.linkIdReading = (L : Int) → st.dataRead = d → st.sendLength L = N →
      d + bs.length < N →
      (sendRun writeOk st bs).2 = [] ∧
      (sendRun writeOk st bs).1.linkIdReading = (L : Int) ∧
      (sendRun writeOk st bs).1.dataRead = d + bs.length ∧
      (sendRun writeOk st bs).1.sendLength L = N := by
  intro bs
  induction bs with
  | nil =>
    intro st d hL hd hsl _
    refine ⟨rfl, hL, ?_, hsl⟩
    simp only [List.length_nil, Nat.add_zero]
    exact hd
  | cons c cs ih =>
    intro st d hL hd hsl hlt
    have hstep := sendStep_armed_mid writeOk st c L N d hL hd hsl (by simp at hlt; omega)
    have hrec := ih ({ st with
        sendBuffer := (fun i => if i = d then c else st.sendBuffer i),
        dataRead := d + 1 }) (d + 1) hL rfl hsl (by simp at hlt ⊢; omega)
    simp only [sendRun, hstep]
    refine ⟨hrec.1, hrec.2.1, ?_, hrec.2.2.2⟩
    rw [hrec.2.2.1]
    simp
    omega

/-- Feeding exactly the missing bytes into the armed state produces one
write whose payload is the buffered prefix followed by those bytes, and
the state reverts to command mode. -/
lemma sendRun_armed (writeOk : Bool) (L N : Nat) :
    ∀ (bs : List Nat) (st : SendState) (d : Nat),
      st.linkIdReading = (L : Int) → st.dataRead = d → st.sendLength L = N →
      d + bs.length = N → 1 ≤ bs.length →
      (sendRun writeOk st bs).2 =
        [{ link := L,
           payload := (List.range N).map
             fun i => if i < d then st.sendBuffer i else bs.getD (i - d) 0,
           ok := writeOk }] ∧
      (sendRun writeOk st bs).1.linkIdReading = -1 ∧
      (sendRun writeOk st bs).1.dataRead = 0 := by
  intro bs
  induction bs with
  | nil => intro st d _ _ _ _ h1; simp at h1
  | cons c cs ih =>
    intro st d hL hd hsl hN h1
    by_cases hfin : d + 1 ≥ N
    · have hcs : cs = [] := by
        have : cs.length = 0 := by simp at hN; omega
        exact List.length_eq_zero.mp this
      subst hcs
      have hstep := sendStep_armed_last writeOk st c L N d hL hd hsl hfin
      refine ⟨?_, by simp [sendRun, hstep], by simp [sendRun, hstep]⟩
      simp only [sendRun, hstep, List.append_nil]
      congr 1
      congr 1
      apply List.map_congr_left
      intro i hi
      rw [List.mem_range] at hi
      have hdN : d + 1 = N := by simp at hN; omega
      by_cases hilt : i < d
      · have hne : ¬ i = d := by omega
        simp [hilt, hne]
      · have hieq : i = d := by omega
        subst hieq
        simp
    · have hstep := sendStep_armed_mid writeOk st c L N d hL hd hsl (by omega)
      have hrec := ih ({ st with
          sendBuffer := (fun i => if i = d then c else st.sendBuffer i),
          dataRead := d + 1 }) (d + 1) hL rfl hsl (by simp at hN ⊢; omega)
        (by simp at hN; omega)
      refine ⟨?_, by simp [sendRun, hstep, hrec.2.1], by simp [sendRun, hstep, hrec.2.2]⟩
      simp only [sendRun, hstep, List.nil_append]
      rw [hrec.1]
      congr 1
      congr 1
      apply List.map_congr_left
      intro i hi
      rw [List.mem_range] at hi
      by_cases h1i : i < d
      · have h2i : ¬ i = d := by omega
        have h3i : i < d + 1 := by omega
        simp [h1i, h2i, h3i]
      · by_cases h2i : i = d
        · subst h2i
          simp
        · have h3i : ¬ i < d + 1 := by omega
          have h4 : i - d = (i - (d + 1)) + 1 := by omega
          simp [h1i, h2i, h3i, h4]

/-- A successful AT+CIPSEND arms the state: some link L with dataRead 0
and a sendLength of at most 2048. -/
lemma cmd_AT_CIPSEND_ok (m : Nat → Nat) (cnt cipMux : Nat)
    (connected : Nat → Bool) (st : SendState)
    (hok : (cmd_AT_CIPSEND m cnt cipMux connected st).2 = false) :
    ∃ (L N : Nat), (cmd_AT_CIPSEND m cnt cipMux connected st).1.linkIdReading = (L : Int) ∧
      (cmd_AT_CIPSEND m cnt cipMux connected st).1.linkIdReading.toNat = L ∧
      (cmd_AT_CIPSEND m cnt cipMux connected st).1.dataRead = 0 ∧
      (cmd_AT_CIPSEND m cnt cipMux connected st).1.sendLength L = N ∧
      N ≤ 2048 ∧ connected L = true := by
  unfold cmd_AT_CIPSEND at hok ⊢
  by_cases h10 : rd m 10 ≠ 61
  · rw [if_pos h10] at hok; exact absurd hok (by simp)
  rw [if_neg h10] at hok ⊢
  by_cases hmux : (48 ≤ rd m 11 ∧ rd m 11 ≤ 53 ∧ rd m 12 = 44) ∧ cipMux = 0
  · rw [if_pos hmux] at hok; exact absurd hok (by simp)
  rw [if_neg hmux] at hok ⊢
  set linkId := if 48 ≤ rd m 11 ∧ rd m 11 ≤ 53 ∧ rd m 12 = 44 then rd m 11 - 48 else 0 with hLdef
  by_cases hconn : connected linkId = false
  · rw [if_pos hconn] at hok; exact absurd hok (by simp)
  rw [if_neg hconn] at hok ⊢
  by_cases hrn : (readNumber m (if 48 ≤ rd m 11 ∧ rd m 11 ≤ 53 ∧ rd m 12 = 44 then 13 else 11)).1 = false ∨
      (readNumber m (if 48 ≤ rd m 11 ∧ rd m 11 ≤ 53 ∧ rd m 12 = 44 then 13 else 11)).2.1 + 2 ≠ cnt
  · rw [if_pos hrn] at hok; exact absurd hok (by simp)
  rw [if_neg hrn] at hok ⊢
  by_cases hsz : (readNumber m (if 48 ≤ rd m 11 ∧ rd m 11 ≤ 53 ∧ rd m 12 = 44 then 13 else 11)).2.2 > 2048
  · rw [if_pos hsz] at hok; exact absurd hok (by simp)
  rw [if_neg hsz] at hok ⊢
  refine ⟨linkId,
    (readNumber m (if 48 ≤ rd m 11 ∧ rd m 11 ≤ 53 ∧ rd m 12 = 44 then 13 else 11)).2.2,
    rfl, Int.toNat_natCast linkId, rfl, by simp, by omega,
    by rw [Bool.not_eq_false] at hconn; exact hconn⟩

/-- C2: after a successful AT+CIPSEND (which bounds the length by 2048),
feeding exactly the expected number N of bytes (any values, N at least 1)
into the data mode produces exactly one write carrying exactly those
bytes on the armed link, after which gsLinkIdReading is -1 and dataRead 0
whether the write succeeded or failed; every strict prefix of the data
produces no write and leaves the state armed. -/
theorem c2_cipsend_data_mode (m : Nat → Nat) (cnt cipMux : Nat)
    (connected : Nat → Bool) (st : SendState) (writeOk : Bool) (bs : List Nat)
    (hok : (cmd_AT_CIPSEND m cnt cipMux connected st).2 = false)
    (hN : bs.length =
      (cmd_AT_CIPSEND m cnt cipMux connected st).1.sendLength
        (cmd_AT_CIPSEND m cnt cipMux connected st).1.linkIdReading.toNat)
    (h1 : 1 ≤ bs.length) :
    bs.length ≤ 2048 ∧
    (sendRun writeOk (cmd_AT_CIPSEND m cnt cipMux connected st).1 bs).2 =
      [{ link := (cmd_AT_CIPSEND m cnt cipMux connected st).1.linkIdReading.toNat,
         payload := bs, ok := writeOk }] ∧
    (sendRun writeOk (cmd_AT_CIPSEND m cnt cipMux connected st).1 bs).1.linkIdReading = -1 ∧
    (sendRun writeOk (cmd_AT_CIPSEND m cnt cipMux connected st).1 bs).1.dataRead = 0 ∧
    (∀ k < bs.length,
      (sendRun writeOk (cmd_AT_CIPSEND m cnt cipMux connected st).1 (bs.take k)).2 = [] ∧
      (sendRun writeOk (cmd_AT_CIPSEND m cnt cipMux connected st).1 (bs.take k)).1.linkIdReading =
        (cmd_AT_CIPSEND m cnt cipMux connected st).1.linkIdReading ∧
      (sendRun writeOk (cmd_AT_CIPSEND m cnt cipMux connected st).1 (bs.take k)).1.dataRead = k) := by
  obtain ⟨L, N, hL, htn, hd, hsl, h2048, _⟩ :=
    cmd_AT_CIPSEND_ok m cnt cipMux connected st hok
  rw [htn, hsl] at hN
  have hrun := sendRun_armed writeOk L N bs
    (cmd_AT_CIPSEND m cnt cipMux connected st).1 0 hL hd hsl (by omega) h1
  refine ⟨by omega, ?_, hrun.2.1, hrun.2.2, ?_⟩
  · rw [hrun.1, htn]
    congr 2
    have : (List.range N).map
        (fun i => if i < 0 then (cmd_AT_CIPSEND m cnt cipMux connected st).1.sendBuffer i
          else bs.getD (i - 0) 0) =
        (List.range N).map (fun i => bs.getD i 0) := by
      apply List.map_congr_left
      intro i _
      rw [if_neg (by omega : ¬ i < 0)]
      simp
    rw [this, ← hN]
    exact map_range_getD bs
  · intro k hk
    have hp := sendRun_partial writeOk L N (bs.take k)
      (cmd_AT_CIPSEND m cnt cipMux connected st).1 0 hL hd hsl
      (by rw [List.length_take]; omega)
    refine ⟨hp.1, by rw [hp.2.1, hL], ?_⟩
    rw [hp.2.2.1, List.length_take]
    omega

/-- Concrete input line AT+CIPSEND=3 CR LF for the C2 witness. -/
def c2mem : Nat → Nat :=
  toMem [65, 84, 43, 67, 73, 80, 83, 69, 78, 68, 61, 51, 13, 10]

/-- A quiescent state for the C2 witness. -/
def c2st : SendState :=
  { linkIdReading := -1, dataRead := 0, sendBuffer := fun _ => 0, sendLength := fun _ => 0 }

/-- Witness for c2_cipsend_data_mode: AT+CIPSEND=3 followed by the three
bytes 255, 0, 10 (control bytes included) writes exactly those three
bytes once and reverts to command mode. -/
theorem c2_cipsend_data_mode_witness :
    ([255, 0, 10].length ≤ 2048 ∧
    (sendRun true (cmd_AT_CIPSEND c2mem 14 0 (fun _ => true) c2st).1 [255, 0, 10]).2 =
      [{ link := (cmd_AT_CIPSEND c2mem 14 0 (fun _ => true) c2st).1.linkIdReading.toNat,
         payload := [255, 0, 10], ok := true }] ∧
    (sendRun true (cmd_AT_CIPSEND c2mem 14 0 (fun _ => true) c2st).1 [255, 0, 10]).1.linkIdReading = -1 ∧
    (sendRun true (cmd_AT_CIPSEND c2mem 14 0 (fun _ => true) c2st).1 [255, 0, 10]).1.dataRead = 0 ∧
    (∀ k < [255, 0, 10].length,
      (sendRun true (cmd_AT_CIPSEND c2mem 14 0 (fun _ => true) c2st).1 ([255, 0, 10].take k)).2 = [] ∧
      (sendRun true (cmd_AT_CIPSEND c2mem 14 0 (fun _ => true) c2st).1 ([255, 0, 10].take k)).1.linkIdReading =
        (cmd_AT_CIPSEND c2mem 14 0 (fun _ => true) c2st).1.linkIdReading ∧
      (sendRun true (cmd_AT_CIPSEND c2mem 14 0 (fun _ => true) c2st).1 ([255, 0, 10].take k)).1.dataRead = k)) :=
  c2_cipsend_data_mode c2mem 14 0 (fun _ => true) c2st true [255, 0, 10]
    (by decide) (by decide) (by decide)

/-!
## C9: byte filtering during the certificate load
-/

/-- C9 counterexample. The control byte 0x01 lies outside the allow-list
(it is neither alphanumeric nor one of slash, plus, equals, minus, space,
backslash, CR, LF), yet the load is not aborted: the state keeps loading
and no error is reported; the byte is silently ignored. -/
theorem c9_counterexample :
    (isAlphaNumericB 1 || strchrAllowed 1) = false ∧
    (certLoadStep noParse c9st 1).1.loading = true ∧
    (certLoadStep noParse c9st 1).2 = [] := by
  refine ⟨by decide, by decide, by decide⟩

/-- C9 amended: in the CERT_LOAD state, an incoming byte outside the
allow-list aborts the load exactly when it is at or above the space
character: an error is reported, gsCertLoading is cleared and all
remaining buffered input is discarded; a control byte below the space
that is outside the allow-list is silently ignored (only the byte count
advances). For allow-listed bytes, CR is folded to LF (a CR step equals
an LF step) and an LF following an LF already at the end of the buffer
is collapsed (not stored). -/
theorem c9_cert_load_filter (pemParse : List Nat → Option (List Nat))
    (st : CertLoadState) (c : Nat) (rest : List Nat) :
    (32 ≤ c → (isAlphaNumericB c || strchrAllowed c) = false →
      certLoadStep pemParse st c =
        ({ st with pemCount := st.pemCount + 1, loading := false }, [.certAbort]) ∧
      certLoadRun pemParse st (c :: rest) =
        ({ st with pemCount := st.pemCount + 1, loading := false }, [.certAbort])) ∧
    (c < 32 → (isAlphaNumericB c || strchrAllowed c) = false →
      certLoadStep pemParse st c = ({ st with pemCount := st.pemCount + 1 }, [])) ∧
    (certLoadStep pemParse st 13 = certLoadStep pemParse st 10) ∧
    (st.pem.getLast? = some 10 →
      certLoadStep pemParse st 10 = ({ st with pemCount := st.pemCount + 1 }, [])) := by
  refine ⟨?_, ?_, ?_, ?_⟩
  · intro hge hout
    have hstep : certLoadStep pemParse st c =
        ({ st with pemCount := st.pemCount + 1, loading := false }, [.certAbort]) := by
      unfold certLoadStep
      rw [hout]
      simp only [Bool.false_eq_true, if_false]
      rw [if_neg (by omega : ¬ c < 32)]
    refine ⟨hstep, ?_⟩
    unfold certLoadRun
    rw [hstep]
    simp only []
    rw [if_pos trivial]
  · intro hlt hout
    unfold certLoadStep
    rw [hout]
    simp only [Bool.false_eq_true, if_false]
    rw [if_pos hlt]
  · have h13 : (isAlphaNumericB 13 || strchrAllowed 13) = true := by decide
    have h10 : (isAlphaNumericB 10 || strchrAllowed 10) = true := by decide
    unfold certLoadStep
    simp [h13, h10]
  · intro hlast
    have h10 : (isAlphaNumericB 10 || strchrAllowed 10) = true := by decide
    unfold certLoadStep
    simp [h10, hlast]

/-!
## C6: TLV and agreement lemmas
-/

lemma agrees_append (m : Nat → Nat) (p : Nat) (l1 l2 : List Nat) :
    agrees m p (l1 ++ l2) ↔ agrees m p l1 ∧ agrees m (p + l1.length) l2 := by
  constructor
  · intro h
    constructor
    · intro i hi
      have := h i (by rw [List.length_append]; omega)
      rwa [List.getD_append _ _ _ _ hi] at this
    · intro i hi
      have := h (l1.length + i) (by rw [List.length_append]; omega)
      rw [List.getD_append_right _ _ _ _ (by omega)] at this
      rw [show l1.length + i - l1.length = i by omega] at this
      rw [show p + l1.length + i = p + (l1.length + i) by omega]
      exact this
  · rintro ⟨h1, h2⟩
    intro i hi
    rw [List.length_append] at hi
    by_cases hlt : i < l1.length
    · rw [List.getD_append _ _ _ _ hlt]
      exact h1 i hlt
    · rw [List.getD_append_right _ _ _ _ (by omega)]
      have := h2 (i - l1.length) (by omega)
      rw [show p + l1.length + (i - l1.length) = p + i by omega] at this
      exact this

lemma agrees_cons (m : Nat → Nat) (p a : Nat) (l : List Nat) :
    agrees m p (a :: l) ↔ rd m p = a ∧ agrees m (p + 1) l := by
  constructor
  · intro h
    refine ⟨by simpa using h 0 (by simp), ?_⟩
    intro i hi
    have := h (i + 1) (by simp; omega)
    rw [List.getD_cons_succ] at this
    rw [show p + 1 + i = p + (i + 1) by omega]
    exact this
  · rintro ⟨h1, h2⟩
    intro i hi
    cases i with
    | zero => simpa using h1
    | succ j =>
      rw [List.getD_cons_succ]
      have := h2 j (by simp at hi; omega)
      rw [show p + (j + 1) = p + 1 + j by omega]
      exact this

lemma hdrSize_ge2 (n : Nat) : 2 ≤ hdrSize n := by
  unfold hdrSize; split <;> omega

lemma hdrSize_le4 (n : Nat) : hdrSize n ≤ 4 := by
  unfold hdrSize; split <;> omega

lemma lenBytes_length (n : Nat) : (lenBytes n).length = hdrSize n - 1 := by
  unfold lenBytes hdrSize; split <;> simp

lemma tlv_length (t : Nat) (b : List Nat) :
    (tlv t b).length = hdrSize b.length + b.length := by
  unfold tlv
  rw [List.length_cons, List.length_append, lenBytes_length]
  have := hdrSize_ge2 b.length
  omega

/-- The bytes of a TLV sit in memory: the tag at p, the length bytes
after it, the body at p + hdrSize; and readHeader decodes exactly the
header, advancing to the end of the TLV. -/
lemma readHeader_tlv (der : Nat → Nat) (p bound t : Nat) (body : List Nat)
    (hag : agrees der p (tlv t body))
    (hin : p + (tlv t body).length ≤ bound)
    (hb : bound ≤ 65535) :
    readHeader der p bound =
      ({ tag := t, length := body.length, dataPos := p + hdrSize body.length },
        p + (tlv t body).length) := by
  have htl := tlv_length t body
  have hs2 := hdrSize_ge2 body.length
  have hs4 := hdrSize_le4 body.length
  have hlen : body.length < 65536 := by omega
  rw [tlv, agrees_cons] at hag
  obtain ⟨htag, hag1⟩ := hag
  have hplt : ¬ p ≥ bound := by omega
  by_cases hshort : body.length < 128
  · have hlb : rd der (p + 1) = body.length := by
      have := hag1 0 (by simp [lenBytes, hshort])
      simpa [lenBytes, hshort] using this
    have hhs : hdrSize body.length = 2 := by unfold hdrSize; rw [if_pos hshort]
    unfold readHeader
    rw [if_neg hplt, htag, hlb, if_pos hshort, if_neg (by omega : ¬ p + 2 > bound)]
    rw [Nat.mod_eq_of_lt (by omega : p + 2 < 65536),
      Nat.mod_eq_of_lt (by omega : p + 2 + body.length < 65536)]
    rw [hhs]
    congr 1
    omega
  · have hhs : hdrSize body.length = 4 := by unfold hdrSize; rw [if_neg hshort]
    have hlb1 : rd der (p + 1) = 130 := by
      have := hag1 0 (by simp [lenBytes, hshort])
      simpa [lenBytes, hshort] using this
    have hlb2 : rd der (p + 2) = body.length / 256 % 256 := by
      have := hag1 1 (by simp [lenBytes, hshort])
      simpa [lenBytes, hshort] using this
    have hlb3 : rd der (p + 3) = body.length % 256 := by
      have := hag1 2 (by simp [lenBytes, hshort])
      simpa [lenBytes, hshort] using this
    have hrecon : body.length / 256 % 256 * 256 + body.length % 256 = body.length := by
      have hd : body.length / 256 < 256 := by omega
      rw [Nat.mod_eq_of_lt hd, Nat.mul_comm]
      exact Nat.div_add_mod body.length 256
    unfold readHeader
    rw [if_neg hplt, htag, hlb1, if_neg (by omega : ¬ (130 : Nat) < 128),
      if_pos rfl, hlb2, hlb3, hrecon, if_neg (by omega : ¬ p + 4 > bound)]
    rw [Nat.mod_eq_of_lt (by omega : p + 4 < 65536),
      Nat.mod_eq_of_lt (by omega : p + 4 + body.length < 65536)]
    rw [hhs]
    congr 1
    omega

/-- Decompose the agreement of a TLV: the body sits at p + hdrSize. -/
lemma agrees_tlv_body (m : Nat → Nat) (p t : Nat) (body : List Nat)
    (hag : agrees m p (tlv t body)) :
    agrees m (p + hdrSize body.length) body := by
  rw [tlv, agrees_cons, agrees_append] at hag
  have := hag.2.2
  rw [lenBytes_length] at this
  have h2 := hdrSize_ge2 body.length
  rw [show p + hdrSize body.length = p + 1 + (hdrSize body.length - 1) by omega]
  exact this

/-- A sequential decomposition step: reading a TLV that is followed by
further bytes inside the same bound. -/
lemma seq_step (der : Nat → Nat) (p bound t : Nat) (body rest : List Nat)
    (hag : agrees der p (tlv t body ++ rest))
    (hin : p + (tlv t body ++ rest).length ≤ bound)
    (hb : bound ≤ 65535) :
    readHeader der p bound =
      ({ tag := t, length := body.length, dataPos := p + hdrSize body.length },
        p + (tlv t body).length) ∧
    agrees der (p + hdrSize body.length) body ∧
    agrees der (p + (tlv t body).length) rest := by
  rw [agrees_append] at hag
  have hin' : p + (tlv t body).length ≤ bound := by
    rw [List.length_append] at hin; omega
  exact ⟨readHeader_tlv der p bound t body hag.1 hin' hb,
    agrees_tlv_body der p t body hag.1, hag.2⟩

/-- Component equations of a decoded header, for rewriting the
projection applications that appear in the getCnFromDer definitions. -/
lemma rh_parts (der : Nat → Nat) (p bound t L d q : Nat)
    (h : readHeader der p bound = ({ tag := t, length := L, dataPos := d }, q)) :
    (readHeader der p bound).1.tag = t ∧ (readHeader der p bound).1.length = L ∧
    (readHeader der p bound).1.dataPos = d ∧ (readHeader der p bound).2 = q :=
  ⟨by rw [h], by rw [h], by rw [h], by rw [h]⟩

/-- cnValue on an encoded value TLV: a PrintableString tag yields the
offset of the length byte (which indeed holds the value's length, with
the payload right after it); any other tag yields none. -/
lemma cnValue_spec (der : Nat → Nat) (valPos attrEnd vtag : Nat) (value : List Nat)
    (hag : agrees der valPos (tlv vtag value))
    (hin : valPos + (tlv vtag value).length ≤ attrEnd)
    (hb : attrEnd ≤ 65535) (hshort : value.length < 128) :
    (vtag = 19 → cnValue der valPos attrEnd = some (valPos + 1) ∧
      rd der (valPos + 1) = value.length ∧ agrees der (valPos + 2) value) ∧
    (vtag ≠ 19 → cnValue der valPos attrEnd = none) := by
  have htlv := tlv_length vtag value
  have hs2 := hdrSize_ge2 value.length
  have h := readHeader_tlv der valPos attrEnd vtag value hag hin hb
  have hp := rh_parts der valPos attrEnd _ _ _ _ h
  have hhs : hdrSize value.length = 2 := by unfold hdrSize; rw [if_pos hshort]
  constructor
  · intro hvt
    refine ⟨?_, ?_, ?_⟩
    · unfold cnValue
      rw [if_neg (by rw [hp.2.2.1]; omega)]
      rw [if_neg (by rw [hp.1, hvt]; exact fun hx => hx rfl)]
      rw [hp.2.2.1, hhs]
      rw [show valPos + 2 - 1 = valPos + 1 by omega]
    · have hb1 := hag 1 (by omega)
      rw [hb1, tlv, List.getD_cons_succ,
        List.getD_append _ _ _ _ (by rw [lenBytes_length, hhs]; omega)]
      unfold lenBytes
      rw [if_pos hshort]
      rfl
    · have h2 := agrees_tlv_body der valPos vtag value hag
      rw [hhs] at h2
      exact h2
  · intro hvt
    unfold cnValue
    rw [if_neg (by rw [hp.2.2.1]; omega)]
    rw [if_pos (by rw [hp.1]; exact hvt)]

/-- cnAttr on an encoded AVA content (OID TLV followed by value TLV):
a commonName OID hands over to cnValue on the value TLV, any other OID
makes the while loop continue. -/
lemma cnAttr_spec (der : Nat → Nat) (attrPos : Nat) (a : AVA)
    (hag : agrees der attrPos (tlv 6 a.oid ++ tlv a.vtag a.value))
    (hb : attrPos + (tlv 6 a.oid ++ tlv a.vtag a.value).length ≤ 65535) :
    cnAttr der attrPos (attrPos + (tlv 6 a.oid ++ tlv a.vtag a.value).length) =
      if a.oid = cnOid then
        some (cnValue der (attrPos + (tlv 6 a.oid).length)
          (attrPos + (tlv 6 a.oid ++ tlv a.vtag a.value).length))
      else none := by
  have hlapp : (tlv 6 a.oid ++ tlv a.vtag a.value).length =
      (tlv 6 a.oid).length + (tlv a.vtag a.value).length := List.length_append _ _
  have htlo := tlv_length 6 a.oid
  have hs2c := hdrSize_ge2 a.oid.length
  have htlv := tlv_length a.vtag a.value
  have hs2d := hdrSize_ge2 a.value.length
  have h3 := seq_step der attrPos (attrPos + (tlv 6 a.oid ++ tlv a.vtag a.value).length)
    6 a.oid (tlv a.vtag a.value) hag (by omega) (by omega)
  have hp := rh_parts der attrPos _ _ _ _ _ h3.1
  have hagOid : agrees der (attrPos + hdrSize a.oid.length) a.oid := h3.2.1
  unfold cnAttr
  rw [if_neg (by push_neg; exact ⟨by rw [hp.2.2.1]; omega, hp.1⟩)]
  by_cases hoid : a.oid = cnOid
  · have hoidlen : a.oid.length = 3 := by rw [hoid]; rfl
    have hb0 : rd der (attrPos + hdrSize a.oid.length) = 85 := by
      have h := hagOid 0 (by omega)
      rw [hoid] at h ⊢
      simpa [cnOid] using h
    have hb1 : rd der (attrPos + hdrSize a.oid.length + 1) = 4 := by
      have h := hagOid 1 (by omega)
      rw [hoid] at h ⊢
      simpa [cnOid] using h
    have hb2 : rd der (attrPos + hdrSize a.oid.length + 2) = 3 := by
      have h := hagOid 2 (by omega)
      rw [hoid] at h ⊢
      simpa [cnOid] using h
    rw [if_pos (⟨by rw [hp.2.1, hoidlen], by rw [hp.2.2.1]; exact hb0,
      by rw [hp.2.2.1]; exact hb1, by rw [hp.2.2.1]; exact hb2⟩ :
      (readHeader der attrPos (attrPos + (tlv 6 a.oid ++ tlv a.vtag a.value).length)).1.length
          = 3 ∧ _ ∧ _ ∧ _)]
    rw [if_pos hoid, hp.2.2.2]
  · rw [if_neg (by
      rintro ⟨hl3, hx0, hx1, hx2⟩
      rw [hp.2.1] at hl3
      rw [hp.2.2.1] at hx0 hx1 hx2
      apply hoid
      apply List.ext_getElem (by rw [hl3]; rfl)
      intro k hk1 hk2
      have hk3 : k < 3 := by omega
      interval_cases k
      · have := hagOid 0 (by omega)
        rw [List.getD_eq_getElem _ 0 (by omega)] at this
        rw [← this]
        simpa using hx0
      · have := hagOid 1 (by omega)
        rw [List.getD_eq_getElem _ 0 (by omega)] at this
        rw [← this]
        simpa using hx1
      · have := hagOid 2 (by omega)
        rw [List.getD_eq_getElem _ 0 (by omega)] at this
        rw [← this]
        simpa using hx2)]
    rw [if_neg hoid]

/-- cnIter on an encoded AVA: the full contract of one while-loop
iteration past the SET header. -/
lemma cnIter_spec (der : Nat → Nat) (setPos : Nat) (a : AVA)
    (hag : agrees der setPos (encodeAVA a))
    (hb : setPos + (encodeAVA a).length ≤ 65535)
    (hwfa : wfAVA a) :
    (a.oid = cnOid → a.vtag = 19 →
      ∃ o, cnIter der setPos (setPos + (encodeAVA a).length) = some (some o) ∧
        rd der o = a.value.length ∧ agrees der (o + 1) a.value) ∧
    (a.oid = cnOid → a.vtag ≠ 19 →
      cnIter der setPos (setPos + (encodeAVA a).length) = some none) ∧
    (a.oid ≠ cnOid →
      cnIter der setPos (setPos + (encodeAVA a).length) = none) := by
  have hAVA : encodeAVA a = tlv 48 (tlv 6 a.oid ++ tlv a.vtag a.value) := rfl
  have hlen : (encodeAVA a).length = (tlv 48 (tlv 6 a.oid ++ tlv a.vtag a.value)).length := by
    rw [hAVA]
  have htl2 := tlv_length 48 (tlv 6 a.oid ++ tlv a.vtag a.value)
  have hs2b := hdrSize_ge2 (tlv 6 a.oid ++ tlv a.vtag a.value).length
  rw [hAVA] at hag
  have h2 := readHeader_tlv der setPos (setPos + (encodeAVA a).length)
    48 (tlv 6 a.oid ++ tlv a.vtag a.value) hag (by omega) (by omega)
  have hp := rh_parts der setPos _ _ _ _ _ h2
  have hIter : cnIter der setPos (setPos + (encodeAVA a).length) =
      cnAttr der (setPos + hdrSize (tlv 6 a.oid ++ tlv a.vtag a.value).length)
        (setPos + hdrSize (tlv 6 a.oid ++ tlv a.vtag a.value).length +
          (tlv 6 a.oid ++ tlv a.vtag a.value).length) := by
    unfold cnIter
    rw [if_neg (by push_neg; exact ⟨by rw [hp.2.2.1]; omega, hp.1⟩)]
    rw [hp.2.2.1, hp.2.1]
    rw [Nat.mod_eq_of_lt (by omega)]
  have hagInner : agrees der (setPos + hdrSize (tlv 6 a.oid ++ tlv a.vtag a.value).length)
      (tlv 6 a.oid ++ tlv a.vtag a.value) :=
    agrees_tlv_body der setPos 48 (tlv 6 a.oid ++ tlv a.vtag a.value) hag
  have hattr := cnAttr_spec der
    (setPos + hdrSize (tlv 6 a.oid ++ tlv a.vtag a.value).length) a hagInner (by omega)
  have hlapp : (tlv 6 a.oid ++ tlv a.vtag a.value).length =
      (tlv 6 a.oid).length + (tlv a.vtag a.value).length := List.length_append _ _
  have htlo := tlv_length 6 a.oid
  have hs2c := hdrSize_ge2 a.oid.length
  have htlv := tlv_length a.vtag a.value
  have hs2d := hdrSize_ge2 a.value.length
  have hagVal : agrees der
      (setPos + hdrSize (tlv 6 a.oid ++ tlv a.vtag a.value).length + (tlv 6 a.oid).length)
      (tlv a.vtag a.value) := by
    rw [agrees_append] at hagInner
    exact hagInner.2
  have hvalue := cnValue_spec der
    (setPos + hdrSize (tlv 6 a.oid ++ tlv a.vtag a.value).length + (tlv 6 a.oid).length)
    (setPos + hdrSize (tlv 6 a.oid ++ tlv a.vtag a.value).length +
      (tlv 6 a.oid ++ tlv a.vtag a.value).length)
    a.vtag a.value hagVal (by omega) (by omega) hwfa.2.2.2
  refine ⟨?_, ?_, ?_⟩
  · intro hoid hvt
    obtain ⟨hv1, hv2, hv3⟩ := hvalue.1 hvt
    refine ⟨setPos + hdrSize (tlv 6 a.oid ++ tlv a.vtag a.value).length +
      (tlv 6 a.oid).length + 1, ?_, hv2, hv3⟩
    rw [hIter, hattr, if_pos hoid, hv1]
  · intro hoid hvt
    rw [hIter, hattr, if_pos hoid, hvalue.2 hvt]
  · intro hoid
    rw [hIter, hattr, if_neg hoid]

/-- cnSpec on a cons whose head carries the commonName OID. -/
lemma cnSpec_cons_pos (der : Nat → Nat) (a : AVA) (l : List AVA) (r : Option Nat)
    (hoid : a.oid = cnOid) :
    cnSpec der (a :: l) r ↔
      (if a.vtag = 19 then
        ∃ o, r = some o ∧ rd der o = a.value.length ∧ agrees der (o + 1) a.value
      else r = none) := by
  unfold cnSpec
  rw [List.find?_cons_of_pos _ (by simp [hoid])]

/-- cnSpec on a cons whose head carries another OID. -/
lemma cnSpec_cons_neg (der : Nat → Nat) (a : AVA) (l : List AVA) (r : Option Nat)
    (hoid : a.oid ≠ cnOid) :
    cnSpec der (a :: l) r ↔ cnSpec der l r := by
  unfold cnSpec
  rw [List.find?_cons_of_neg _ (by simp [hoid])]

/-- The issuer loop visits the RDN SETs in order and implements cnSpec:
the first RDN carrying OID 2.5.4.3 decides the result. -/
lemma cnLoop_spec (der : Nat → Nat) :
    ∀ (l : List AVA) (fuel issuerPos : Nat),
      l.length + 1 ≤ fuel →
      agrees der issuerPos ((l.map encodeRDN).flatten) →
      issuerPos + ((l.map encodeRDN).flatten).length ≤ 65535 →
      (∀ a ∈ l, wfAVA a) →
      cnSpec der l
        (cnLoop der fuel issuerPos (issuerPos + ((l.map encodeRDN).flatten).length)) := by
  intro l
  induction l with
  | nil =>
    intro fuel issuerPos hfuel hag hb hwf
    cases fuel with
    | zero => omega
    | succ f =>
      rw [cnLoop]
      rw [if_neg (by simp : ¬ issuerPos < issuerPos + ((([] : List AVA).map encodeRDN).flatten).length)]
      unfold cnSpec
      simp
  | cons a l' ih =>
    intro fuel issuerPos hfuel hag hb hwf
    cases fuel with
    | zero => omega
    | succ f =>
      have hflat : (((a :: l').map encodeRDN).flatten : List Nat) =
          tlv 49 (encodeAVA a) ++ (l'.map encodeRDN).flatten := by
        simp [encodeRDN]
      rw [hflat] at hag hb ⊢
      have htl := tlv_length 49 (encodeAVA a)
      have hs2 := hdrSize_ge2 (encodeAVA a).length
      have hlapp : (tlv 49 (encodeAVA a) ++ (l'.map encodeRDN).flatten).length =
          (tlv 49 (encodeAVA a)).length + ((l'.map encodeRDN).flatten).length :=
        List.length_append _ _
      have h1 := seq_step der issuerPos
        (issuerPos + (tlv 49 (encodeAVA a) ++ (l'.map encodeRDN).flatten).length)
        49 (encodeAVA a) ((l'.map encodeRDN).flatten) hag (by omega) (by omega)
      have hp := rh_parts der issuerPos _ _ _ _ _ h1.1
      rw [cnLoop]
      rw [if_pos (by omega :
        issuerPos < issuerPos + (tlv 49 (encodeAVA a) ++ (l'.map encodeRDN).flatten).length)]
      rw [if_neg (by push_neg; exact ⟨by rw [hp.2.2.1]; omega, hp.1⟩)]
      rw [hp.2.2.1, hp.2.1, hp.2.2.2]
      rw [Nat.mod_eq_of_lt (by omega :
        issuerPos + hdrSize (encodeAVA a).length + (encodeAVA a).length < 65536)]
      have hiter := cnIter_spec der (issuerPos + hdrSize (encodeAVA a).length) a
        h1.2.1 (by omega) (hwf a (List.mem_cons_self _ _))
      by_cases hoid : a.oid = cnOid
      · by_cases hvt : a.vtag = 19
        · obtain ⟨o, ho, hrd, hagv⟩ := hiter.1 hoid hvt
          rw [ho, Option.getD_some]
          rw [cnSpec_cons_pos der a l' _ hoid, if_pos hvt]
          exact ⟨o, rfl, hrd, hagv⟩
        · rw [hiter.2.1 hoid hvt, Option.getD_some]
          rw [cnSpec_cons_pos der a l' _ hoid, if_neg hvt]
      · rw [hiter.2.2 hoid, Option.getD_none]
        have hrec := ih f (issuerPos + (tlv 49 (encodeAVA a)).length)
          (by simp at hfuel ⊢; omega)
          h1.2.2
          (by omega)
          (fun x hx => hwf x (List.mem_cons_of_mem _ hx))
        have hE : issuerPos + (tlv 49 (encodeAVA a) ++ (l'.map encodeRDN).flatten).length =
            issuerPos + (tlv 49 (encodeAVA a)).length + ((l'.map encodeRDN).flatten).length := by
          omega
        rw [hE]
        rw [cnSpec_cons_neg der a l' _ hoid]
        exact hrec

/-- Every length byte is a byte. -/
lemma lenBytes_lt (n : Nat) : ∀ b ∈ lenBytes n, b < 256 := by
  unfold lenBytes
  split
  · intro b hb
    rw [List.mem_singleton] at hb
    omega
  · intro b hb
    simp only [List.mem_cons, List.not_mem_nil, or_false] at hb
    rcases hb with rfl | rfl | rfl <;> omega

/-- A TLV of a byte tag over byte contents is all bytes. -/
lemma tlv_lt (t : Nat) (b : List Nat) (ht : t < 256) (hb : ∀ x ∈ b, x < 256) :
    ∀ x ∈ tlv t b, x < 256 := by
  intro x hx
  rw [tlv, List.mem_cons] at hx
  rcases hx with rfl | hx
  · exact ht
  · rw [List.mem_append] at hx
    rcases hx with hx | hx
    · exact lenBytes_lt _ _ hx
    · exact hb _ hx

lemma encodeAVA_lt (a : AVA) (h : wfAVA a) : ∀ x ∈ encodeAVA a, x < 256 := by
  apply tlv_lt _ _ (by omega)
  intro x hx
  rw [List.mem_append] at hx
  rcases hx with hx | hx
  · exact tlv_lt _ _ (by omega) h.1 _ hx
  · exact tlv_lt _ _ h.2.1 h.2.2.1 _ hx

lemma rdn_flatten_lt (l : List AVA) (h : ∀ a ∈ l, wfAVA a) :
    ∀ x ∈ (l.map encodeRDN).flatten, x < 256 := by
  intro x hx
  rw [List.mem_flatten] at hx
  obtain ⟨ys, hys, hxy⟩ := hx
  rw [List.mem_map] at hys
  obtain ⟨a, ha, rfl⟩ := hys
  rw [encodeRDN] at hxy
  exact tlv_lt _ _ (by omega) (encodeAVA_lt a (h a ha)) _ hxy

lemma encodeTBS_lt (c : DerCert) (h : wfCert c) : ∀ x ∈ encodeTBS c, x < 256 := by
  obtain ⟨hv, hs, hg, hiss, htr, _, _⟩ := h
  apply tlv_lt _ _ (by omega)
  intro x hx
  simp only [List.mem_append] at hx
  rcases hx with hx | hx | hx | hx | hx
  · exact tlv_lt _ _ (by omega) hv _ hx
  · exact tlv_lt _ _ (by omega) hs _ hx
  · exact tlv_lt _ _ (by omega) hg _ hx
  · rw [encodeIssuer] at hx
    exact tlv_lt _ _ (by omega) (rdn_flatten_lt _ hiss) _ hx
  · exact htr _ hx

lemma encodeCert_lt (c : DerCert) (h : wfCert c) : ∀ x ∈ encodeCert c, x < 256 := by
  apply tlv_lt _ _ (by omega)
  intro x hx
  rw [List.mem_append] at hx
  rcases hx with hx | hx
  · exact encodeTBS_lt c h _ hx
  · exact h.2.2.2.2.2.1 _ hx

/-- Each encoded RDN takes at least one byte, bounding the RDN count by
the encoding length (used for the loop fuel). -/
lemma rdn_flatten_len (l : List AVA) : l.length ≤ ((l.map encodeRDN).flatten).length := by
  induction l with
  | nil => simp
  | cons a l' ih =>
    simp only [List.map_cons, List.flatten_cons, List.length_append, List.length_cons]
    have h2 := hdrSize_ge2 (encodeAVA a).length
    have htl := tlv_length 49 (encodeAVA a)
    have hR : (encodeRDN a).length = (tlv 49 (encodeAVA a)).length := by rw [encodeRDN]
    omega

/-- getCnIssuer on an encoded issuer followed by further bytes. -/
lemma getCnIssuer_spec (der : Nat → Nat) (pos tbsEnd : Nat) (l : List AVA) (rest : List Nat)
    (hag : agrees der pos (encodeIssuer l ++ rest))
    (hin : pos + (encodeIssuer l ++ rest).length ≤ tbsEnd)
    (hb : tbsEnd ≤ 65535)
    (hwf : ∀ a ∈ l, wfAVA a) :
    cnSpec der l (getCnIssuer der pos tbsEnd) := by
  have hflatlen := rdn_flatten_len l
  rw [encodeIssuer] at hag hin
  have htl := tlv_length 48 ((l.map encodeRDN).flatten)
  have hs2 := hdrSize_ge2 ((l.map encodeRDN).flatten).length
  have hlapp := List.length_append (tlv 48 ((l.map encodeRDN).flatten)) rest
  have h := seq_step der pos tbsEnd 48 ((l.map encodeRDN).flatten) rest hag hin hb
  have hp := rh_parts der pos _ _ _ _ _ h.1
  unfold getCnIssuer
  rw [if_neg (by push_neg; exact ⟨by rw [hp.2.2.1]; omega, hp.1⟩)]
  rw [hp.2.2.1, hp.2.1]
  rw [Nat.mod_eq_of_lt (by omega)]
  exact cnLoop_spec der l 65536 (pos + hdrSize ((l.map encodeRDN).flatten).length)
    (by omega) h.2.1 (by omega) hwf

/-- getCnSig skips the AlgorithmIdentifier and hands over to the issuer. -/
lemma getCnSig_spec (der : Nat → Nat) (pos tbsEnd : Nat) (g : List Nat) (l : List AVA)
    (rest : List Nat)
    (hag : agrees der pos (tlv 48 g ++ (encodeIssuer l ++ rest)))
    (hin : pos + (tlv 48 g ++ (encodeIssuer l ++ rest)).length ≤ tbsEnd)
    (hb : tbsEnd ≤ 65535)
    (hwf : ∀ a ∈ l, wfAVA a) :
    cnSpec der l (getCnSig der pos tbsEnd) := by
  have htl := tlv_length 48 g
  have hs2 := hdrSize_ge2 g.length
  have hlapp := List.length_append (tlv 48 g) (encodeIssuer l ++ rest)
  have h := seq_step der pos tbsEnd 48 g (encodeIssuer l ++ rest) hag hin hb
  have hp := rh_parts der pos _ _ _ _ _ h.1
  unfold getCnSig
  rw [if_neg (by push_neg; exact ⟨by rw [hp.2.2.1]; omega, hp.1⟩)]
  rw [hp.2.2.2]
  exact getCnIssuer_spec der (pos + (tlv 48 g).length) tbsEnd l rest h.2.2 (by omega) hb hwf

/-- getCnSerial skips the serialNumber INTEGER. -/
lemma getCnSerial_spec (der : Nat → Nat) (pos tbsEnd : Nat) (s g : List Nat) (l : List AVA)
    (rest : List Nat)
    (hag : agrees der pos (tlv 2 s ++ (tlv 48 g ++ (encodeIssuer l ++ rest))))
    (hin : pos + (tlv 2 s ++ (tlv 48 g ++ (encodeIssuer l ++ rest))).length ≤ tbsEnd)
    (hb : tbsEnd ≤ 65535)
    (hwf : ∀ a ∈ l, wfAVA a) :
    cnSpec der l (getCnSerial der pos tbsEnd) := by
  have htl := tlv_length 2 s
  have hs2 := hdrSize_ge2 s.length
  have hlapp := List.length_append (tlv 2 s) (tlv 48 g ++ (encodeIssuer l ++ rest))
  have h := seq_step der pos tbsEnd 2 s (tlv 48 g ++ (encodeIssuer l ++ rest)) hag hin hb
  have hp := rh_parts der pos _ _ _ _ _ h.1
  unfold getCnSerial
  rw [if_neg (by push_neg; exact ⟨by rw [hp.2.2.1]; omega, hp.1⟩)]
  rw [hp.2.2.2]
  exact getCnSig_spec der (pos + (tlv 2 s).length) tbsEnd g l rest h.2.2 (by omega) hb hwf

/-- getCnFields skips the version field. -/
lemma getCnFields_spec (der : Nat → Nat) (pos tbsEnd : Nat) (v s g : List Nat) (l : List AVA)
    (rest : List Nat)
    (hag : agrees der pos (tlv 160 v ++ (tlv 2 s ++ (tlv 48 g ++ (encodeIssuer l ++ rest)))))
    (hin : pos + (tlv 160 v ++ (tlv 2 s ++ (tlv 48 g ++ (encodeIssuer l ++ rest)))).length ≤ tbsEnd)
    (hb : tbsEnd ≤ 65535)
    (hwf : ∀ a ∈ l, wfAVA a) :
    cnSpec der l (getCnFields der pos tbsEnd) := by
  have htl := tlv_length 160 v
  have hs2 := hdrSize_ge2 v.length
  have hlapp := List.length_append (tlv 160 v) (tlv 2 s ++ (tlv 48 g ++ (encodeIssuer l ++ rest)))
  have h := seq_step der pos tbsEnd 160 v (tlv 2 s ++ (tlv 48 g ++ (encodeIssuer l ++ rest))) hag hin hb
  have hp := rh_parts der pos _ _ _ _ _ h.1
  unfold getCnFields
  rw [if_neg (by push_neg; exact ⟨by rw [hp.2.2.1]; omega, hp.1⟩)]
  rw [hp.2.2.2]
  exact getCnSerial_spec der (pos + (tlv 160 v).length) tbsEnd s g l rest h.2.2 (by omega) hb hwf

/-- getCnTbs on an encoded TBSCertificate followed by further bytes. -/
lemma getCnTbs_spec (der : Nat → Nat) (pos bound : Nat) (c : DerCert) (rest : List Nat)
    (hag : agrees der pos (encodeTBS c ++ rest))
    (hin : pos + (encodeTBS c ++ rest).length ≤ bound)
    (hb : bound ≤ 65535)
    (hwf : ∀ a ∈ c.issuer, wfAVA a) :
    cnSpec der c.issuer (getCnTbs der pos bound) := by
  rw [encodeTBS] at hag hin
  have htl := tlv_length 48 (tlv 160 c.version ++ (tlv 2 c.serial ++ (tlv 48 c.sigAlg ++
    (encodeIssuer c.issuer ++ c.tbsRest))))
  have hs2 := hdrSize_ge2 (tlv 160 c.version ++ (tlv 2 c.serial ++ (tlv 48 c.sigAlg ++
    (encodeIssuer c.issuer ++ c.tbsRest)))).length
  have hlapp := List.length_append (tlv 48 (tlv 160 c.version ++ (tlv 2 c.serial ++
    (tlv 48 c.sigAlg ++ (encodeIssuer c.issuer ++ c.tbsRest))))) rest
  have h := seq_step der pos bound 48 (tlv 160 c.version ++ (tlv 2 c.serial ++ (tlv 48 c.sigAlg ++
    (encodeIssuer c.issuer ++ c.tbsRest)))) rest hag hin hb
  have hp := rh_parts der pos _ _ _ _ _ h.1
  unfold getCnTbs
  rw [if_neg (by push_neg; exact ⟨by rw [hp.2.2.1]; omega, hp.1⟩)]
  rw [hp.2.2.1, hp.2.1]
  rw [Nat.mod_eq_of_lt (by omega)]
  exact getCnFields_spec der
    (pos + hdrSize (tlv 160 c.version ++ (tlv 2 c.serial ++ (tlv 48 c.sigAlg ++
      (encodeIssuer c.issuer ++ c.tbsRest)))).length)
    (pos + hdrSize (tlv 160 c.version ++ (tlv 2 c.serial ++ (tlv 48 c.sigAlg ++
      (encodeIssuer c.issuer ++ c.tbsRest)))).length +
      (tlv 160 c.version ++ (tlv 2 c.serial ++ (tlv 48 c.sigAlg ++
       (encodeIssuer c.issuer ++ c.tbsRest)))).length)
    c.version c.serial c.sigAlg c.issuer c.tbsRest h.2.1 (by omega) (by omega) hwf

/-- C6: on every certificate built from the fixed DER grammar
Certificate(TBSCertificate(version, serialNumber, signatureAlgorithm,
issuer, ...), ...) — rendered by the byte-level encoder encodeCert over
an abstract DerCert — getCnFromDer satisfies cnSpec: the first issuer
RDN whose OID is 0x55 0x04 0x03 decides the result; on a PrintableString
value the returned offset points at the value's length byte with the
payload right after it, on any other tag the result is none, and an
issuer without the OID yields none. -/
theorem c6_cn_extraction (c : DerCert) (hwf : wfCert c) :
    cnSpec (toMem (encodeCert c)) c.issuer
      (getCnFromDer (toMem (encodeCert c)) (encodeCert c).length) := by
  have hag0 : agrees (toMem (encodeCert c)) 0 (encodeCert c) :=
    agrees_toMem _ (encodeCert_lt c hwf)
  have hlen := hwf.2.2.2.2.2.2
  have hEC : encodeCert c = tlv 48 (encodeTBS c ++ c.certRest) := rfl
  rw [hEC] at hag0
  have htl := tlv_length 48 (encodeTBS c ++ c.certRest)
  have hs2 := hdrSize_ge2 (encodeTBS c ++ c.certRest).length
  have hmod : (encodeCert c).length % 65536 = (encodeCert c).length :=
    Nat.mod_eq_of_lt (by omega)
  have hlen2 : (encodeCert c).length = (tlv 48 (encodeTBS c ++ c.certRest)).length := by
    rw [hEC]
  have h := readHeader_tlv (toMem (encodeCert c)) 0 ((encodeCert c).length % 65536)
    48 (encodeTBS c ++ c.certRest) hag0 (by omega) (by omega)
  have hp := rh_parts (toMem (encodeCert c)) 0 _ _ _ _ _ h
  have hbody := agrees_tlv_body (toMem (encodeCert c)) 0 48 (encodeTBS c ++ c.certRest) hag0
  unfold getCnFromDer
  rw [if_neg (by push_neg; exact ⟨by rw [hp.2.2.1]; omega, hp.1⟩)]
  rw [hp.2.2.1, hp.2.1]
  rw [Nat.mod_eq_of_lt (by omega)]
  exact getCnTbs_spec (toMem (encodeCert c)) (0 + hdrSize (encodeTBS c ++ c.certRest).length)
    (0 + hdrSize (encodeTBS c ++ c.certRest).length + (encodeTBS c ++ c.certRest).length)
    c c.certRest hbody (by omega) (by omega) hwf.2.2.2.1

/-- Witness for c6_cn_extraction at the concrete certificate whose one
issuer RDN carries OID 2.5.4.3 with a PrintableString CN. -/
theorem c6_cn_extraction_witness :
    wfCert c6cert ∧
    cnSpec (toMem (encodeCert c6cert)) c6cert.issuer
      (getCnFromDer (toMem (encodeCert c6cert)) (encodeCert c6cert).length) :=
  ⟨by unfold wfCert wfAVA; decide, c6_cn_extraction c6cert (by unfold wfCert wfAVA; decide)⟩

/-- Witness for c9_cert_load_filter at the at-sign byte 64 in a mid-load
state whose buffer ends with LF. -/
theorem c9_cert_load_filter_witness :
    (32 ≤ 64 → (isAlphaNumericB 64 || strchrAllowed 64) = false →
      certLoadStep noParse c9wst 64 =
        ({ c9wst with pemCount := c9wst.pemCount + 1, loading := false }, [.certAbort]) ∧
      certLoadRun noParse c9wst (64 :: [66]) =
        ({ c9wst with pemCount := c9wst.pemCount + 1, loading := false }, [.certAbort])) ∧
    (64 < 32 → (isAlphaNumericB 64 || strchrAllowed 64) = false →
      certLoadStep noParse c9wst 64 = ({ c9wst with pemCount := c9wst.pemCount + 1 }, [])) ∧
    (certLoadStep noParse c9wst 13 = certLoadStep noParse c9wst 10) ∧
    (c9wst.pem.getLast? = some 10 →
      certLoadStep noParse c9wst 10 = ({ c9wst with pemCount := c9wst.pemCount + 1 }, [])) :=
  c9_cert_load_filter noParse c9wst 64 [66]

end ATMod
